import Mathlib

/-!
# Verification of the movie-agent TMDB tool layer and its specification

Shallow embedding of `src/tools.py` (the TMDB helper module of the
movie-agent capstone repository) together with models, taken from the
specification, of the query interpreter and the mapper fallback ladder
that are described by the spec but whose code is not part of the
repository snapshot.

Conventions of the embedding:
* Python `None` and JSON `null`/absent keys are modelled with `Option`;
  Python truthiness of strings/ints/lists is modelled explicitly
  (`none` and `some ""`/`some 0`/empty list are falsy).
* The network is an oracle (`Net`): each endpoint maps to a
  `TmdbOutcome` describing what `requests.request` + `resp.json()`
  would produce (a parsed body, an HTTP error status, a transport
  error, or an invalid JSON body).
* Stateful functions take and return the module caches explicitly and
  additionally produce a trace of observable events (`Ev`): HTTP
  requests that were issued and warnings that were logged.
* `time.time()` is modelled by a single integer `Env.now` (a call is
  treated as instantaneous; only differences of timestamps matter).
* Exceptions that escape a function are modelled with `Except`:
  the only escaping exception in this module is the `RuntimeError`
  raised by `_ensure_api_key` (transport failures are all caught).
-/

namespace Tools

/-- Outcome of one HTTP round-trip as seen by `fetch_tmdb`:
either a parsed JSON body (`ok`, where `none` stands for a falsy body
such as the empty object), an HTTP error status raised by
`raise_for_status`, a transport-level `RequestException`, or a 2xx
response whose body is not valid JSON (`ValueError` from `resp.json()`). -/
inductive TmdbOutcome (α : Type) where
  | ok (body : Option α)
  | httpError
  | requestError
  | invalidJson
deriving DecidableEq

/-- Observable events of the tool layer: an HTTP request issued to an
endpoint (recording the `page` request parameter when the params dict
carries one) and a logged warning. -/
inductive Ev where
  | req (endpoint : String) (page : Option Int)
  | warn
deriving DecidableEq

/-- The only exception that can escape the module:
`RuntimeError("TMDB_API_KEY not set...")` from `_ensure_api_key`. -/
inductive RuntimeError where
  | apiKeyNotSet
deriving DecidableEq

/-- Python truthiness of the module-level `TMDB_API_KEY`
(`None` and the empty string are falsy). -/
def keyTruthy : Option String → Bool
  | none => false
  | some s => s ≠ ""

/-- Python truthiness of an optional string value. -/
def strTruthy : Option String → Bool
  | none => false
  | some s => s ≠ ""

/-- Python truthiness of an optional integer value (`0` is falsy). -/
def intTruthy : Option Int → Bool
  | none => false
  | some i => i ≠ 0

/-- Python `a or b` on two optional strings (`None` and `""` are falsy). -/
def pyOr (a b : Option String) : Option String :=
  if strTruthy a then a else b

/-- Python `a or d` where `d` is a plain string default. -/
def pyOrDefault (a : Option String) (d : String) : String :=
  match a with
  | some s => if s = "" then d else s
  | none => d

/-- `fetch_tmdb` (src/tools.py lines 28-51): ensures the API key is set
(raising `RuntimeError` before any request is made otherwise), issues
the request, and absorbs every HTTP/transport/JSON failure into an
empty (falsy) body after logging a warning. -/
def fetch_tmdb {α : Type} (key : Option String) (endpoint : String)
    (page : Option Int) (oc : TmdbOutcome α) :
    Except RuntimeError (Option α) × List Ev :=
  if keyTruthy key then
    match oc with
    | .ok body => (.ok body, [.req endpoint page])
    | .httpError => (.ok none, [.req endpoint page, .warn])
    | .requestError => (.ok none, [.req endpoint page, .warn])
    | .invalidJson => (.ok none, [.req endpoint page, .warn])
  else (.error .apiKeyNotSet, [])

/-- One entry of the TMDB `/watch/providers/...` response
(`provider_name` and `provider_id` are read with `.get`, so both may be
absent). -/
structure ProviderEntry where
  provider_name : Option String
  provider_id : Option Int
deriving DecidableEq

/-- Body of a `/watch/providers/...` response; an absent `results` key
is read as the empty list (`resp.get("results", [])`). -/
structure ProvidersPayload where
  results : List ProviderEntry
deriving DecidableEq

/-- One entry of a `/genre/.../list` response (the code indexes
`g["name"]` and `g["id"]` directly, so both fields are present). -/
structure GenreEntry where
  name : String
  id : Int
deriving DecidableEq

/-- Body of a `/genre/.../list` response; absent `genres` key read as
the empty list. -/
structure GenresPayload where
  genres : List GenreEntry
deriving DecidableEq

/-- A raw TMDB item as consumed by `normalize_item`: every field is
read with `.get`, so each is optional.  `vote_average` is only passed
through, so its numeric type is modelled by `Int`. -/
structure RawItem where
  id : Option Int
  title : Option String
  name : Option String
  original_title : Option String
  original_name : Option String
  poster_path : Option String
  overview : Option String
  release_date : Option String
  first_air_date : Option String
  media_type : Option String
  vote_average : Option Int
deriving DecidableEq

/-- Body of a `/discover/...` or `/search/...` response:
`results` read with a default, `total_pages` read with default `1`. -/
structure DiscoverPayload where
  results : Option (List RawItem)
  total_pages : Option Int
deriving DecidableEq

/-- The network oracle: what each endpoint would return.
`discover` and `search` are additionally indexed by the requested page. -/
structure Net where
  providers : String → TmdbOutcome ProvidersPayload
  genreList : String → TmdbOutcome GenresPayload
  discover : String → Int → TmdbOutcome DiscoverPayload
  search : String → Int → TmdbOutcome DiscoverPayload

/-- Ambient environment of a call into the module: the module-level
API key, the current value of `time.time()`, and the network oracle. -/
structure Env where
  key : Option String
  now : Int
  net : Net

/-- Python `str.lower()` (character-wise lowering; defined through the
character list so that it evaluates by kernel reduction). -/
def lowerStr (s : String) : String :=
  String.mk (s.toList.map Char.toLower)

/-- Python `str.strip()` (drop leading and trailing whitespace). -/
def stripStr (s : String) : String :=
  String.mk
    (((s.toList.dropWhile Char.isWhitespace).reverse.dropWhile
      Char.isWhitespace).reverse)

/-- Lookup in a Python-dict modelled as an insertion-ordered
association list. -/
def dget {β : Type} (m : List (String × β)) (k : String) : Option β :=
  match m.find? (fun kv => kv.1 == k) with
  | some kv => some kv.2
  | none => none

/-- Python `d[k] = v` on an insertion-ordered association list:
updates the value in place if the key is present, otherwise appends. -/
def insertAssoc {β : Type} (m : List (String × β)) (k : String) (v : β) :
    List (String × β) :=
  if m.any (fun kv => kv.1 == k) then
    m.map (fun kv => if kv.1 == k then (k, v) else kv)
  else m ++ [(k, v)]

/-- The provider cache `_provider_cache` (src/tools.py line 54): a map
from media type to a provider-name→id dict, plus one shared timestamp.
An absent entry models both an absent key and a `None` value. -/
structure PCache where
  entries : List (String × List (String × Option Int))
  timestamp : Int
deriving DecidableEq

/-- The genre cache `_genre_cache` (src/tools.py line 55). -/
structure GCache where
  entries : List (String × List (String × Int))
  timestamp : Int
deriving DecidableEq

/-- The two module-level caches. -/
structure Caches where
  pc : PCache
  gc : GCache
deriving DecidableEq

/-- Initial state of `_provider_cache`:
`{"movie": None, "tv": None, "timestamp": 0}`. -/
def initPCache : PCache := ⟨[], 0⟩

/-- Initial state of `_genre_cache`. -/
def initGCache : GCache := ⟨[], 0⟩

/-- Python truthiness of `_provider_cache.get(media_type)`:
falsy when the entry is absent/`None` or an empty dict. -/
def pEntryTruthy (pc : PCache) (mt : String) : Bool :=
  match dget pc.entries mt with
  | some m => !m.isEmpty
  | none => false

/-- Python truthiness of `_genre_cache.get(media_type)`. -/
def gEntryTruthy (gc : GCache) (mt : String) : Bool :=
  match dget gc.entries mt with
  | some m => !m.isEmpty
  | none => false

/-- Substring containment on character lists, mirroring Python's
`needle in hay` for strings (the empty needle is contained in
everything). -/
def substrOf (needle hay : List Char) : Bool :=
  match hay with
  | [] => needle.isEmpty
  | _ :: t => needle.isPrefixOf hay || substrOf needle t

/-- The substring-matching loop of `get_provider_id_by_name`
(src/tools.py lines 78-80): the first provider whose (lowered) name
contains the query as a substring, returning its stored id. -/
def subLookup (key : String) : List (String × Option Int) → Option Int
  | [] => none
  | (k, v) :: rest =>
    if substrOf key.toList k.toList then v else subLookup key rest

/-- The pure lookup performed by `get_provider_id_by_name` once the
provider map is available: exact dict hit first (which may itself hold
`None` if the raw entry lacked a `provider_id`), then the substring
scan. -/
def providerLookup (m : List (String × Option Int)) (key : String) :
    Option Int :=
  match dget m key with
  | some v => v
  | none => subLookup key m

/-- Build the provider-name→id mapping from a `/watch/providers`
response (src/tools.py lines 67-70): keys are lowered
`provider_name`s (absent names become `""`), later duplicates
overwrite earlier values. -/
def buildProviderMap (results : List ProviderEntry) :
    List (String × Option Int) :=
  results.foldl
    (fun m p => insertAssoc m (lowerStr (p.provider_name.getD "")) p.provider_id)
    []

/-- Condition under which `get_provider_id_by_name` refreshes the
provider mapping (src/tools.py line 63). -/
def pRefreshCond (env : Env) (pc : PCache) (mt : String) : Bool :=
  !pEntryTruthy pc mt || decide (env.now - pc.timestamp > 24 * 3600)

/-- The provider-list endpoint chosen for a media type
(src/tools.py line 64). -/
def provEndpoint (media_type : String) : String :=
  if media_type = "movie" then "/watch/providers/movie"
  else "/watch/providers/tv"

/-- `get_provider_id_by_name` (src/tools.py lines 57-81).  Returns the
resolved id (or `none`), the updated provider cache and the event
trace; propagates the `RuntimeError` of an uninitialized API key. -/
def get_provider_id_by_name (env : Env) (pc : PCache)
    (name : Option String) (media_type : String) (region : String) :
    Except RuntimeError (Option Int) × PCache × List Ev :=
  if !strTruthy name then (.ok none, pc, [])
  else
    let name_key := lowerStr (stripStr (name.getD ""))
    let _ := region
    if pRefreshCond env pc media_type then
      let ep := provEndpoint media_type
      match fetch_tmdb env.key ep (some 1) (env.net.providers ep) with
      | (.error e, tr) => (.error e, pc, tr)
      | (.ok body, tr) =>
        let results := match body with
          | none => []
          | some pl => pl.results
        let mapping := buildProviderMap results
        let pc2 : PCache :=
          ⟨insertAssoc pc.entries media_type mapping, env.now⟩
        let m := (dget pc2.entries media_type).getD []
        (.ok (providerLookup m name_key), pc2, tr)
    else
      let m := (dget pc.entries media_type).getD []
      (.ok (providerLookup m name_key), pc, [])

/-- Build the genre-name→id mapping from a `/genre/.../list` response
(src/tools.py line 89): lowered names, later duplicates overwrite. -/
def buildGenreMap (genres : List GenreEntry) : List (String × Int) :=
  genres.foldl (fun m g => insertAssoc m (lowerStr g.name) g.id) []

/-- The genre-list endpoint chosen for a media type
(src/tools.py line 87). -/
def genreEndpoint (media_type : String) : String :=
  if media_type = "movie" then "/genre/movie/list" else "/genre/tv/list"

/-- Condition under which `ensure_genres` serves from the cache
(src/tools.py line 85). -/
def gServeCond (env : Env) (gc : GCache) (mt : String) : Bool :=
  decide (gc.timestamp ≠ 0)
    && decide (env.now - gc.timestamp < 24 * 3600)
    && gEntryTruthy gc mt

/-- `ensure_genres` (src/tools.py lines 83-92). -/
def ensure_genres (env : Env) (gc : GCache) (media_type : String) :
    Except RuntimeError (List (String × Int)) × GCache × List Ev :=
  if gServeCond env gc media_type then
    (.ok ((dget gc.entries media_type).getD []), gc, [])
  else
    let ep := genreEndpoint media_type
    match fetch_tmdb env.key ep none (env.net.genreList ep) with
    | (.error e, tr) => (.error e, gc, tr)
    | (.ok body, tr) =>
      let result := match body with
        | none => []
        | some gp => buildGenreMap gp.genres
      (.ok result, ⟨insertAssoc gc.entries media_type result, env.now⟩, tr)

/-- A normalized item as produced by `normalize_item`
(src/tools.py lines 95-109); the raw item is kept in the `raw` field. -/
structure NormalizedItem where
  id : Option Int
  title : Option String
  poster_path : Option String
  overview : Option String
  release_date : Option String
  media_type : String
  vote_average : Option Int
  raw : RawItem
deriving DecidableEq

/-- `normalize_item` (src/tools.py lines 95-109). -/
def normalize_item (item : RawItem) (default_media_type : String) :
    NormalizedItem :=
  { id := item.id
    title := pyOr item.title (pyOr item.name
      (pyOr item.original_title item.original_name))
    poster_path := item.poster_path
    overview := item.overview
    release_date := pyOr item.release_date item.first_air_date
    media_type := pyOrDefault item.media_type default_media_type
    vote_average := item.vote_average
    raw := item }

/-- The request-parameter dict built by `discover_media_with_filters`
(src/tools.py lines 128-174).  The key set is static, so the dict is
modelled as a record; `none` means the key is omitted.  Field
`with_runtime_lte` stands for the dict key `"with_runtime.lte"`,
`primary_release_date_lte` for `"primary_release_date.lte"` and
`first_air_date_lte` for `"first_air_date.lte"`. -/
structure DiscoverParams where
  page : Int
  sort_by : String
  include_adult : Bool
  language : String
  with_watch_providers : Option String
  watch_region : Option String
  with_genres : Option String
  with_runtime_lte : Option Int
  primary_release_date_lte : Option String
  first_air_date_lte : Option String
  with_original_language : Option String
deriving DecidableEq

/-- Python truthiness of an optional list argument
(`None` and `[]` are falsy). -/
def listTruthy {β : Type} : Option (List β) → Bool
  | none => false
  | some l => !l.isEmpty

/-- What one resolved provider id contributes to the `pids` list of
`discover_media_with_filters` (src/tools.py lines 139-140):
`str(pid)` when the id is truthy, nothing otherwise. -/
def pidKeep (pid : Option Int) : List String :=
  match pid with
  | some i => if i ≠ 0 then [toString i] else []
  | none => []

/-- The provider loop of `discover_media_with_filters`
(src/tools.py lines 136-140): resolve each name, keep `str(pid)` for
every truthy resolved id, threading the provider cache and
propagating a `RuntimeError`. -/
def resolveProviders (env : Env) (mt region : String) :
    List String → PCache → Except RuntimeError (List String × PCache) × List Ev
  | [], pc => (.ok ([], pc), [])
  | n :: rest, pc =>
    match get_provider_id_by_name env pc (some n) mt region with
    | (.error e, _, tr) => (.error e, tr)
    | (.ok pid, pc2, tr) =>
      match resolveProviders env mt region rest pc2 with
      | (.error e, tr2) => (.error e, tr ++ tr2)
      | (.ok (pids, pc3), tr2) => (.ok (pidKeep pid ++ pids, pc3), tr ++ tr2)

/-- The genre-id filter of `discover_media_with_filters`
(src/tools.py lines 148-154): skip falsy names, look up the lowered
name, keep `str(gid)` for truthy ids, in order. -/
def genreIds (gmap : List (String × Int)) (gs : List String) : List String :=
  gs.filterMap (fun g =>
    if g = "" then none
    else match dget gmap (lowerStr g) with
      | some gid => if gid ≠ 0 then some (toString gid) else none
      | none => none)

/-- The runtime, release-date and original-language filters of
`discover_media_with_filters` (src/tools.py lines 158-174), applied
to the params dict built so far. -/
def applyScalarFilters (media_type : String) (max_runtime_minutes : Option Int)
    (original_language primary_release_before : Option String)
    (ps : DiscoverParams) : DiscoverParams :=
  -- runtime filter (set for media_type "movie" and, best-effort, "tv")
  let ps3 := if intTruthy max_runtime_minutes ∧ media_type = "movie" then
      { ps with with_runtime_lte := max_runtime_minutes }
    else ps
  let ps4 := if intTruthy max_runtime_minutes ∧ media_type = "tv" then
      { ps3 with with_runtime_lte := max_runtime_minutes }
    else ps3
  -- release date bounds
  let ps5 := if strTruthy primary_release_before then
      if media_type = "movie" then
        { ps4 with primary_release_date_lte := primary_release_before }
      else
        { ps4 with first_air_date_lte := primary_release_before }
    else ps4
  -- original language
  if strTruthy original_language then
    { ps5 with with_original_language := original_language }
  else ps5

/-- The base params dict of `discover_media_with_filters`
(src/tools.py lines 128-133). -/
def baseParams (page : Int) : DiscoverParams :=
  { page := page
    sort_by := "popularity.desc"
    include_adult := false
    language := "en-US"
    with_watch_providers := none
    watch_region := none
    with_genres := none
    with_runtime_lte := none
    primary_release_date_lte := none
    first_air_date_lte := none
    with_original_language := none }

/-- The provider phase of `discover_media_with_filters`
(src/tools.py lines 135-143): the value that ends up in
`with_watch_providers` (`none` when the key is omitted, which also
means `watch_region` is omitted), plus updated caches and trace. -/
def providersParam (env : Env) (cs : Caches) (media_type region : String)
    (provider_names : Option (List String)) :
    Except RuntimeError (Option String × Caches) × List Ev :=
  if listTruthy provider_names then
    match resolveProviders env media_type region (provider_names.getD []) cs.pc with
    | (.error e, tr) => (.error e, tr)
    | (.ok (pids, pc2), tr) =>
      if pids.isEmpty then (.ok (none, ⟨pc2, cs.gc⟩), tr)
      else (.ok (some (String.intercalate "," pids), ⟨pc2, cs.gc⟩), tr)
  else (.ok (none, cs), [])

/-- The genre phase of `discover_media_with_filters`
(src/tools.py lines 146-156): the value that ends up in
`with_genres`, plus updated caches and trace. -/
def genresParam (env : Env) (cs1 : Caches) (media_type : String)
    (genres : Option (List String)) :
    Except RuntimeError (Option String × Caches) × List Ev :=
  if listTruthy genres then
    match ensure_genres env cs1.gc media_type with
    | (.error e, _, tr) => (.error e, tr)
    | (.ok gmap, gc2, tr) =>
      let gid_list := genreIds gmap (genres.getD [])
      if gid_list.isEmpty then (.ok (none, ⟨cs1.pc, gc2⟩), tr)
      else (.ok (some (String.intercalate "," gid_list), ⟨cs1.pc, gc2⟩), tr)
  else (.ok (none, cs1), [])

/-- The parameter-construction phase of `discover_media_with_filters`
(src/tools.py lines 128-174), threading both caches and the event
trace and propagating `RuntimeError`. -/
def discoverParamsSt (env : Env) (cs : Caches) (media_type region : String)
    (max_runtime_minutes : Option Int) (provider_names : Option (List String))
    (genres : Option (List String)) (original_language : Option String)
    (primary_release_before : Option String) (page : Int) :
    Except RuntimeError DiscoverParams × Caches × List Ev :=
  match providersParam env cs media_type region provider_names with
  | (.error e, tr) => (.error e, cs, tr)
  | (.ok (wwp, cs1), tr1) =>
    match genresParam env cs1 media_type genres with
    | (.error e, tr2) => (.error e, cs1, tr1 ++ tr2)
    | (.ok (wg, cs2), tr2) =>
      let ps2 := { baseParams page with
        with_watch_providers := wwp
        watch_region := match wwp with
          | some _ => some region
          | none => none
        with_genres := wg }
      (.ok (applyScalarFilters media_type max_runtime_minutes
              original_language primary_release_before ps2),
       cs2, tr1 ++ tr2)

/-- The page loop of `discover_media_with_filters`
(src/tools.py lines 177-188): fetch pages `p, p+1, ...` (at most
`fuel` of them, where `fuel` is the size of
`range(page, page + max_pages)`), stopping on a falsy body or when
`p >= total_pages` or `p >= page + max_pages - 1`. -/
def discoverLoop (env : Env) (endpoint mt : String)
    (pageArg max_pages : Int) :
    Int → Nat → Except RuntimeError (List NormalizedItem) × List Ev
  | _, 0 => (.ok [], [])
  | p, fuel + 1 =>
    match fetch_tmdb env.key endpoint (some p) (env.net.discover endpoint p) with
    | (.error e, tr) => (.error e, tr)
    | (.ok body, tr) =>
      match body with
      | none => (.ok [], tr)
      | some d =>
        let items := (d.results.getD []).map (fun it => normalize_item it mt)
        let total := d.total_pages.getD 1
        if p ≥ total ∨ p ≥ pageArg + max_pages - 1 then (.ok items, tr)
        else
          match discoverLoop env endpoint mt pageArg max_pages (p + 1) fuel with
          | (.error e, tr2) => (.error e, tr ++ tr2)
          | (.ok more, tr2) => (.ok (items ++ more), tr ++ tr2)

/-- The discover endpoint chosen for a media type
(src/tools.py line 176). -/
def discoverEndpoint (media_type : String) : String :=
  if media_type = "movie" then "/discover/movie" else "/discover/tv"

/-- `discover_media_with_filters` (src/tools.py lines 112-188):
build the params (resolving provider and genre names through the
caches), then fetch up to `max_pages` pages and normalize every raw
result.  The unused `language` parameter of the Python signature is
kept. -/
def discover_media_with_filters (env : Env) (cs : Caches)
    (media_type region : String) (max_runtime_minutes : Option Int)
    (provider_names : Option (List String)) (genres : Option (List String))
    (language original_language primary_release_before : Option String)
    (page max_pages : Int) :
    Except RuntimeError (List NormalizedItem) × Caches × List Ev :=
  let _ := language
  match discoverParamsSt env cs media_type region max_runtime_minutes
      provider_names genres original_language primary_release_before page with
  | (.error e, cs2, tr) => (.error e, cs2, tr)
  | (.ok _, cs2, tr) =>
    match discoverLoop env (discoverEndpoint media_type) media_type
        page max_pages page (max_pages.toNat) with
    | (.error e, tr2) => (.error e, cs2, tr ++ tr2)
    | (.ok items, tr2) => (.ok items, cs2, tr ++ tr2)

/-- Python slice `l[:n]`, including the negative-`n` case
(`l[:-k]` drops the last `k` elements). -/
def pySlice {β : Type} (l : List β) (n : Int) : List β :=
  if 0 ≤ n then l.take n.toNat else l.take (l.length - (-n).toNat)

/-- The search endpoint chosen for a media type
(src/tools.py line 192). -/
def searchEndpoint (media_type : String) : String :=
  if media_type = "movie" then "/search/movie" else "/search/tv"

/-- `search_fallback` (src/tools.py lines 190-195): one page-1 search
request, first `max_results` raw results normalized. -/
def search_fallback (env : Env) (query : String) (media_type : String)
    (max_results : Int) :
    Except RuntimeError (List NormalizedItem) × List Ev :=
  let _ := query
  let ep := searchEndpoint media_type
  match fetch_tmdb env.key ep (some 1) (env.net.search ep 1) with
  | (.error e, tr) => (.error e, tr)
  | (.ok body, tr) =>
    let res := match body with
      | none => []
      | some d => d.results.getD []
    (.ok ((pySlice res max_results).map
        (fun r => normalize_item r media_type)), tr)

/-- A failed HTTP round-trip: an HTTP error status, a transport error
or an invalid JSON body (everything except a parsed response). -/
def failingB {α : Type} : TmdbOutcome α → Bool
  | .ok _ => false
  | .httpError => true
  | .requestError => true
  | .invalidJson => true

/-- Whether an `Except` result is a normal return (no exception). -/
def exOk {ε α : Type} : Except ε α → Bool
  | .ok _ => true
  | .error _ => false

/-- The provider cache entry for a media type is populated and within
the 24-hour time-to-live, so `get_provider_id_by_name` does not
refresh it. -/
def pWarm (env : Env) (pc : PCache) (mt : String) : Prop :=
  pEntryTruthy pc mt = true ∧ env.now - pc.timestamp ≤ 24 * 3600

instance (env : Env) (pc : PCache) (mt : String) :
    Decidable (pWarm env pc mt) := by
  unfold pWarm; infer_instance

/-- The genre cache has a set timestamp, is within the time-to-live
and its entry for the media type is populated, so `ensure_genres`
serves from the cache. -/
def gWarm (env : Env) (gc : GCache) (mt : String) : Prop :=
  gc.timestamp ≠ 0 ∧ env.now - gc.timestamp < 24 * 3600
    ∧ gEntryTruthy gc mt = true

instance (env : Env) (gc : GCache) (mt : String) :
    Decidable (gWarm env gc mt) := by
  unfold gWarm; infer_instance

/-- Pure description of what one provider name contributes to the
`with_watch_providers` id list when the provider map is `pmap`:
nothing for a falsy name or an unresolved/falsy id, the decimal
rendering of the id otherwise. -/
def resolvedPid (pmap : List (String × Option Int)) (n : String) :
    Option String :=
  if n = "" then none
  else
    match providerLookup pmap (lowerStr (stripStr n)) with
    | some i => if i ≠ 0 then some (toString i) else none
    | none => none

end Tools

namespace Interp

/-- Modelled from the spec: the `ParsedQuery` value object (spec §3);
the query interpreter that produces it is described in spec §4.1 but
its code is not part of the repository snapshot under `src/`. -/
structure ParsedQuery where
  media_type : String
  genres : List String
  providers : List String
  max_duration_minutes : Option Nat
  language : Option String
  dub_required : Bool
  title : Option String
deriving DecidableEq

/-- Substring check of a fixed keyword inside the (lowered) text,
mirroring case-insensitive substring matching. -/
def containsSub (hay : List Char) (needle : String) : Bool :=
  Tools.substrOf needle.toList hay

/-- Modelled from the spec: the media-type keyword table of spec §4.1
step 1 (category, synonym keywords), iterated in order with the first
matching category winning.  The specific categories come before the
generic ones so that the spec §8 example
`hindi dubbed anime series ==> media_type anime` holds. -/
def mediaTypeTable : List (String × List String) :=
  [("anime", ["anime"]),
   ("documentary", ["documentary", "docu"]),
   ("movie", ["movie", "film", "feature"]),
   ("tv", ["tv", "series", "show"])]

/-- Modelled from the spec: a representative provider synonym table
(keyword, canonical platform name) of spec §4.1 step 2. -/
def providerTable : List (String × String) :=
  [("netflix", "netflix"),
   ("prime", "amazon prime video"),
   ("amazon", "amazon prime video"),
   ("hotstar", "disney plus hotstar"),
   ("disney", "disney plus hotstar"),
   ("crunchyroll", "crunchyroll"),
   ("sony liv", "sony liv"),
   ("zee5", "zee5")]

/-- Modelled from the spec: a representative flat genre/synonym list
of spec §4.1 step 3 (hyphens allowed). -/
def genreTable : List String :=
  ["action", "comedy", "drama", "horror", "thriller", "romance",
   "rom-com", "sci-fi", "fantasy", "animation", "crime", "mystery",
   "adventure", "documentary"]

/-- Order-preserving duplicate-removing accumulator. -/
def addUnique (acc : List String) (x : String) : List String :=
  if x ∈ acc then acc else acc ++ [x]

/-- Hyphens replaced with spaces (spec §4.1 step 3). -/
def hyphenToSpace (s : String) : String :=
  String.mk (s.toList.map (fun c => if c = '-' then ' ' else c))

/-- Suffix of the text after the first occurrence of a marker. -/
def afterMarker (marker : String) : List Char → Option (List Char)
  | [] => none
  | c :: t =>
    if marker.toList.isPrefixOf (c :: t) then
      some ((c :: t).drop marker.length)
    else afterMarker marker t

/-- First whitespace-delimited word of a character list. -/
def firstWord (t : List Char) : List Char :=
  t.takeWhile (fun c => c ≠ ' ')

/-- Modelled from the spec: provider extraction (spec §4.1 step 2):
every table keyword found in the text contributes its canonical name,
in table-scan order, deduplicated; if none matched, the first word
following the literal token `on ` is checked against the same table. -/
def parseProviders (t : List Char) : List String :=
  let found := providerTable.foldl
    (fun acc kv => if containsSub t kv.1 then addUnique acc kv.2 else acc) []
  if found.isEmpty then
    match afterMarker "on " t with
    | some rest =>
      let w := String.mk (firstWord rest)
      match providerTable.find? (fun kv => kv.1 == w) with
      | some kv => [kv.2]
      | none => []
    | none => []
  else found

/-- Leading decimal number of a character list, together with the rest.
Rejects a zero value: the spec (§3) declares `max_duration_minutes` to
be a positive integer, so the modelled extractor only accepts positive
amounts. -/
def readNum (t : List Char) : Option (Nat × List Char) :=
  let ds := t.takeWhile Char.isDigit
  if ds.isEmpty then none
  else
    let n := ds.foldl (fun a c => a * 10 + (c.toNat - 48)) 0
    if n = 0 then none else some (n, t.drop ds.length)

/-- Drop leading spaces. -/
def skipSpaces (t : List Char) : List Char :=
  t.dropWhile (fun c => c = ' ')

/-- Unit check for hour-based duration phrases (`hr`, `hrs`, `hour`,
`hours`). -/
def unitHours (t : List Char) : Bool :=
  "hr".toList.isPrefixOf t || "hour".toList.isPrefixOf t

/-- Unit check for minute-based duration phrases. -/
def unitMins (t : List Char) : Bool :=
  "min".toList.isPrefixOf t

/-- Try one duration surface pattern at the current position:
a marker, then a positive number, then the unit. -/
def matchAt (marker : String) (unit : List Char → Bool) (cs : List Char) :
    Option Nat :=
  if marker.toList.isPrefixOf cs then
    match readNum (skipSpaces (cs.drop marker.length)) with
    | some (n, rest) => if unit (skipSpaces rest) then some n else none
    | none => none
  else none

/-- Scan every suffix position of the text for the first match of `f`. -/
def scanFor (f : List Char → Option Nat) : List Char → Option Nat
  | [] => f []
  | c :: t =>
    match f (c :: t) with
    | some n => some n
    | none => scanFor f t

/-- First position where one of the markers is followed by a positive
number and the unit. -/
def findPattern (markers : List String) (unit : List Char → Bool)
    (t : List Char) : Option Nat :=
  scanFor
    (fun cs => markers.foldl
      (fun acc m =>
        match acc with
        | some n => some n
        | none => matchAt m unit cs) none)
    t

/-- Modelled from the spec: duration extraction (spec §4.1 step 4),
patterns tried in order with the first match winning:
`under/less than N hr(s)/hour(s)` gives `N*60` minutes,
`under N min(ute)s` gives `N` minutes,
`< N hours`/`less than N hours` gives `N*60` minutes. -/
def parseDuration (t : List Char) : Option Nat :=
  match findPattern ["under ", "less than "] unitHours t with
  | some n => some (n * 60)
  | none =>
    match findPattern ["under "] unitMins t with
    | some n => some n
    | none =>
      match findPattern ["< ", "less than "] unitHours t with
      | some n => some (n * 60)
      | none => none

/-- Modelled from the spec: language/dub extraction (spec §4.1 step 5),
the three checks mutually exclusive and evaluated in order. -/
def parseLanguage (t : List Char) : Option String × Bool :=
  if containsSub t "hindi dub" || containsSub t "hindi dubbed"
      || containsSub t "dub in hindi" then (some "hi", true)
  else if containsSub t "hindi" && !containsSub t "dub" then
    (some "hi", false)
  else if containsSub t "japanese" || containsSub t "japan" then
    (some "ja", false)
  else (none, false)

/-- The single-quote character. -/
def squote : Char := Char.ofNat 39

/-- The double-quote character. -/
def dquoteChar : Char := Char.ofNat 34

/-- Characters strictly before the first occurrence of `c`, or `none`
if `c` does not occur. -/
def takeUntilChar (c : Char) : List Char → Option (List Char)
  | [] => none
  | x :: t =>
    if x = c then some []
    else (takeUntilChar c t).map (fun r => x :: r)

/-- Modelled from the spec: title extraction (spec §4.1 step 6), the
first single- or double-quoted substring of the original text; an
opening quote without a matching closing quote is skipped. -/
def extractQuoted : List Char → Option String
  | [] => none
  | c :: rest =>
    if c = squote ∨ c = dquoteChar then
      match takeUntilChar c rest with
      | some body => some (String.mk body)
      | none => extractQuoted rest
    else extractQuoted rest

/-- Modelled from the spec: media-type extraction (spec §4.1 step 1). -/
def parseMediaType (t : List Char) : String :=
  match mediaTypeTable.find?
      (fun row => row.2.any (fun kw => containsSub t kw)) with
  | some row => row.1
  | none => "any"

/-- Modelled from the spec: genre extraction (spec §4.1 step 3). -/
def parseGenres (t : List Char) : List String :=
  genreTable.foldl
    (fun acc g =>
      if containsSub t g then addUnique acc (hyphenToSpace g) else acc) []

/-- Modelled from the spec: `parse(text) -> ParsedQuery` (spec §4.1),
the query interpreter whose code is not in the repository snapshot.
Pure and total on all strings; matching is case-insensitive substring
search over the fixed tables, and the title comes from the original
(not lowered) text. -/
def parse (text : String) : ParsedQuery :=
  let t := text.toList.map Char.toLower
  let lang := parseLanguage t
  { media_type := parseMediaType t
    genres := parseGenres t
    providers := parseProviders t
    max_duration_minutes := parseDuration t
    language := lang.1
    dub_required := lang.2
    title := extractQuoted text.toList }

end Interp

namespace Mapper

/-- Modelled from the spec: the `DiscoveryFilter` record (spec §3)
consumed by the external discovery operation; item payloads are kept
abstract. -/
structure MapFilter where
  media_type : String
  region : String
  provider_ids : List Int
  genre_ids : List Int
  max_runtime : Option Int
  original_language : Option String
deriving DecidableEq

/-- One external call recorded by the mapper: a discovery call with a
filter, or a title search. -/
inductive MapperCall where
  | discover (f : MapFilter)
  | titleSearch (q : String)
deriving DecidableEq

/-- Modelled from the spec: the broadened retry filter of spec §4.2
step 3, the primary filter with `provider_ids` and
`max_runtime_minutes` cleared (genres and language retained). -/
def broadened (f : MapFilter) : MapFilter :=
  { f with provider_ids := [], max_runtime := none }

/-- Modelled from the spec: the mapper fallback ladder of spec §4.2,
whose code is not in the repository snapshot.  Steps, each a fallback
on the empty result of the previous one: (1) the primary discovery
call; (2) if empty and a title was extracted, the external title
search; (3) if still empty and auto-broadening is enabled, the
broadened discovery call; (4) otherwise zero results.  The external
client is abstracted by the two operation arguments; the returned
trace lists the external calls in invocation order. -/
def mapperLadder {α : Type} (discoverOp : MapFilter → List α)
    (searchOp : String → List α) (f : MapFilter) (title : Option String)
    (broadenEnabled : Bool) : List α × List MapperCall :=
  let r1 := discoverOp f
  if !r1.isEmpty then (r1, [.discover f])
  else
    match title with
    | some t =>
      let r2 := searchOp t
      if !r2.isEmpty then (r2, [.discover f, .titleSearch t])
      else if broadenEnabled then
        (discoverOp (broadened f),
         [.discover f, .titleSearch t, .discover (broadened f)])
      else ([], [.discover f, .titleSearch t])
    | none =>
      if broadenEnabled then
        (discoverOp (broadened f), [.discover f, .discover (broadened f)])
      else ([], [.discover f])

end Mapper

namespace Fx

open Tools

/-- A network on which every request fails with an HTTP error. -/
def netFail : Net :=
  ⟨fun _ => .httpError, fun _ => .httpError,
   fun _ _ => .httpError, fun _ _ => .httpError⟩

/-- A raw movie item with every field present. -/
def rawA : RawItem :=
  ⟨some 1, some "Alpha", none, none, none, some "/a.jpg", some "ov-a",
   some "2020-01-01", none, some "movie", some 8⟩

/-- A raw TV-style item: no `title`/`release_date`, but `name` and
`first_air_date`. -/
def rawB : RawItem :=
  ⟨some 2, none, some "Beta", none, none, none, some "ov-b",
   none, some "2021-05-05", none, some 7⟩

/-- A raw item whose `media_type` key holds the empty string. -/
def rawEmptyMt : RawItem :=
  ⟨some 3, some "Gamma", none, none, none, none, none,
   none, none, some "", some 6⟩

/-- A network on which every request succeeds with small fixed
payloads. -/
def netOk : Net :=
  ⟨fun _ => .ok (some ⟨[⟨some "Netflix", some 8⟩]⟩),
   fun _ => .ok (some ⟨[⟨"Action", 28⟩]⟩),
   fun _ _ => .ok (some ⟨some [rawA, rawB], some 1⟩),
   fun _ _ => .ok (some ⟨some [rawA, rawB], some 1⟩)⟩

/-- Environment with an initialized key and a failing network. -/
def envFail : Env := ⟨some "k", 10, netFail⟩

/-- Environment with an uninitialized key. -/
def envNoKey : Env := ⟨none, 10, netFail⟩

/-- Environment with an initialized key and a working network. -/
def envOk : Env := ⟨some "k", 10, netOk⟩

/-- A populated, fresh provider cache (timestamp 5, now 10). -/
def pcWarm : PCache :=
  ⟨[("movie", [("netflix", some 8), ("amazon prime video", some 119)])], 5⟩

/-- A populated, fresh genre cache. -/
def gcWarm : GCache := ⟨[("movie", [("action", 28), ("comedy", 35)])], 5⟩

/-- Both caches warm. -/
def csWarm : Caches := ⟨pcWarm, gcWarm⟩

/-- Both caches in their initial (cold) state. -/
def csCold : Caches := ⟨initPCache, initGCache⟩

/-- Genre cache populated at time 1. -/
def gcBoundary : GCache := ⟨[("movie", [("action", 28)])], 1⟩

/-- Environment whose clock sits exactly 24 hours after
`gcBoundary.timestamp`. -/
def envBoundary : Env := ⟨some "k", 1 + 24 * 3600, netOk⟩

end Fx

namespace Tools

theorem fetch_fail {α : Type} {key : Option String}
    (h : keyTruthy key = true) (ep : String) (pg : Option Int)
    {oc : TmdbOutcome α} (hf : failingB oc = true) :
    fetch_tmdb key ep pg oc = (.ok none, [.req ep pg, .warn]) := by
  cases oc <;> simp_all [fetch_tmdb, failingB]

theorem fetch_noKey {α : Type} {key : Option String}
    (h : keyTruthy key = false) (ep : String) (pg : Option Int)
    (oc : TmdbOutcome α) :
    fetch_tmdb key ep pg oc = (.error .apiKeyNotSet, []) := by
  simp [fetch_tmdb, h]

theorem fetch_ok_of_key {α : Type} {key : Option String}
    (h : keyTruthy key = true) (ep : String) (pg : Option Int)
    (oc : TmdbOutcome α) :
    ∃ body tr, fetch_tmdb key ep pg oc = (.ok body, tr) := by
  cases oc <;> simp [fetch_tmdb, h]

theorem gp_ok (env : Env) (pc : PCache) (name : Option String)
    (mt region : String) (h : keyTruthy env.key = true) :
    ∃ r pc2 tr,
      get_provider_id_by_name env pc name mt region = (.ok r, pc2, tr) := by
  unfold get_provider_id_by_name
  by_cases hs : strTruthy name
  · simp only [hs, Bool.not_true, Bool.false_eq_true, if_false]
    by_cases hr : pRefreshCond env pc mt
    · simp only [hr, if_true]
      obtain ⟨body, tr, hf⟩ := fetch_ok_of_key h (provEndpoint mt) (some 1)
        (env.net.providers (provEndpoint mt))
      rw [hf]
      exact ⟨_, _, _, rfl⟩
    · simp only [hr, if_false]
      exact ⟨_, _, _, rfl⟩
  · simp only [hs, Bool.not_false, if_true]
    exact ⟨_, _, _, rfl⟩

theorem gp_noKey_shape (env : Env) (pc : PCache) (name : Option String)
    (mt region : String) (h : keyTruthy env.key = false) :
    ∃ res, get_provider_id_by_name env pc name mt region = (res, pc, []) := by
  unfold get_provider_id_by_name
  cases hs : strTruthy name with
  | false =>
    simp only [hs, Bool.not_false, if_true]
    exact ⟨_, rfl⟩
  | true =>
    cases hr : pRefreshCond env pc mt with
    | false =>
      simp only [hs, hr, Bool.not_true, Bool.false_eq_true, if_false]
      exact ⟨_, rfl⟩
    | true =>
      simp only [hs, hr, Bool.not_true, Bool.false_eq_true, if_false, if_true]
      rw [fetch_noKey h]
      exact ⟨_, rfl⟩

theorem gp_noKey_miss (env : Env) (pc : PCache) (name : Option String)
    (mt region : String) (h : keyTruthy env.key = false)
    (hs : strTruthy name = true) (hr : pRefreshCond env pc mt = true) :
    get_provider_id_by_name env pc name mt region
      = (.error .apiKeyNotSet, pc, []) := by
  unfold get_provider_id_by_name
  simp only [hs, hr, Bool.not_true, Bool.false_eq_true, if_false, if_true]
  rw [fetch_noKey h]

theorem eg_ok (env : Env) (gc : GCache) (mt : String)
    (h : keyTruthy env.key = true) :
    ∃ g gc2 tr, ensure_genres env gc mt = (.ok g, gc2, tr) := by
  unfold ensure_genres
  by_cases hv : gServeCond env gc mt
  · simp only [hv, if_true]
    exact ⟨_, _, _, rfl⟩
  · simp only [hv, if_false]
    obtain ⟨body, tr, hf⟩ := fetch_ok_of_key h (genreEndpoint mt) none
      (env.net.genreList (genreEndpoint mt))
    rw [hf]
    exact ⟨_, _, _, rfl⟩

theorem eg_noKey (env : Env) (gc : GCache) (mt : String)
    (h : keyTruthy env.key = false) (hc : gServeCond env gc mt = false) :
    ensure_genres env gc mt = (.error .apiKeyNotSet, gc, []) := by
  unfold ensure_genres
  rw [hc]
  simp only [Bool.false_eq_true, if_false]
  rw [fetch_noKey h]

theorem eg_noKey_shape (env : Env) (gc : GCache) (mt : String)
    (h : keyTruthy env.key = false) :
    ∃ res gc2, ensure_genres env gc mt = (res, gc2, []) := by
  cases hc : gServeCond env gc mt with
  | true =>
    unfold ensure_genres
    rw [hc]
    exact ⟨_, _, rfl⟩
  | false => exact ⟨_, _, eg_noKey env gc mt h hc⟩

theorem gp_warm (env : Env) (pc : PCache) (n : String) (mt region : String)
    (hw : pWarm env pc mt) :
    get_provider_id_by_name env pc (some n) mt region
      = (.ok (if n = "" then none
          else providerLookup ((dget pc.entries mt).getD []) (lowerStr (stripStr n))),
         pc, []) := by
  obtain ⟨h1, h2⟩ := hw
  have hr : pRefreshCond env pc mt = false := by
    unfold pRefreshCond
    rw [h1]
    simp
    omega
  unfold get_provider_id_by_name
  by_cases hn : n = ""
  · subst hn
    simp [strTruthy]
  · have hs : strTruthy (some n) = true := by simp [strTruthy, hn]
    simp only [hs, hr, Bool.not_true, Bool.false_eq_true, if_false, hn,
      Option.getD_some]

theorem eg_warm (env : Env) (gc : GCache) (mt : String)
    (hw : gWarm env gc mt) :
    ensure_genres env gc mt
      = (.ok ((dget gc.entries mt).getD []), gc, []) := by
  obtain ⟨h1, h2, h3⟩ := hw
  have hc : gServeCond env gc mt = true := by
    unfold gServeCond
    rw [h3]
    simp only [Bool.and_true]
    rw [decide_eq_true h1, decide_eq_true h2]
    rfl
  unfold ensure_genres
  rw [hc]
  rfl

theorem rp_ok (env : Env) (mt region : String)
    (h : keyTruthy env.key = true) :
    ∀ (names : List String) (pc : PCache),
      ∃ pids pc2 tr,
        resolveProviders env mt region names pc = (.ok (pids, pc2), tr) := by
  intro names
  induction names with
  | nil => exact fun pc => ⟨[], pc, [], rfl⟩
  | cons n rest ih =>
    intro pc
    obtain ⟨r, pc2, tr, hgp⟩ := gp_ok env pc (some n) mt region h
    obtain ⟨pids, pc3, tr2, hrp⟩ := ih pc2
    have heq : resolveProviders env mt region (n :: rest) pc
        = (.ok (pidKeep r ++ pids, pc3), tr ++ tr2) := by
      unfold resolveProviders
      rw [hgp]
      dsimp only
      rw [hrp]
    exact ⟨_, _, _, heq⟩

theorem rp_noKey (env : Env) (mt region : String)
    (h : keyTruthy env.key = false) :
    ∀ (names : List String) (pc : PCache),
      ∃ res, resolveProviders env mt region names pc = (res, []) := by
  intro names
  induction names with
  | nil => exact fun pc => ⟨_, rfl⟩
  | cons n rest ih =>
    intro pc
    obtain ⟨res, hgp⟩ := gp_noKey_shape env pc (some n) mt region h
    cases res with
    | error e =>
      refine ⟨.error e, ?_⟩
      unfold resolveProviders
      rw [hgp]
    | ok pid =>
      obtain ⟨res2, hrp⟩ := ih pc
      cases res2 with
      | error e =>
        refine ⟨.error e, ?_⟩
        unfold resolveProviders
        rw [hgp]
        dsimp only
        rw [hrp]
        simp
      | ok v =>
        obtain ⟨pids, pc3⟩ := v
        refine ⟨.ok (pidKeep pid ++ pids, pc3), ?_⟩
        unfold resolveProviders
        rw [hgp]
        dsimp only
        rw [hrp]
        simp

theorem rp_warm (env : Env) (mt region : String) (pc : PCache)
    (hw : pWarm env pc mt) :
    ∀ names : List String,
      resolveProviders env mt region names pc
        = (.ok (names.filterMap
            (resolvedPid ((dget pc.entries mt).getD [])), pc), []) := by
  intro names
  induction names with
  | nil => rfl
  | cons n rest ih =>
    unfold resolveProviders
    rw [gp_warm env pc n mt region hw]
    dsimp only
    rw [ih]
    by_cases hn : n = ""
    · simp [hn, resolvedPid, pidKeep]
    · simp only [hn, if_false, List.filterMap_cons, resolvedPid]
      cases hpl : providerLookup ((dget pc.entries mt).getD []) (lowerStr (stripStr n)) with
      | none => simp [pidKeep]
      | some i =>
        by_cases hi : i = 0
        · simp [hi, pidKeep]
        · simp [hi, pidKeep]

theorem pp_ok (env : Env) (cs : Caches) (mt region : String)
    (pn : Option (List String)) (h : keyTruthy env.key = true) :
    ∃ v cs1 tr, providersParam env cs mt region pn = (.ok (v, cs1), tr) := by
  unfold providersParam
  by_cases hp : listTruthy pn
  · simp only [hp, if_true]
    obtain ⟨pids, pc2, tr, hrp⟩ := rp_ok env mt region h (pn.getD []) cs.pc
    rw [hrp]
    dsimp only
    by_cases hpe : pids.isEmpty
    · simp only [hpe, if_true]
      exact ⟨_, _, _, rfl⟩
    · simp only [hpe, Bool.false_eq_true, if_false]
      exact ⟨_, _, _, rfl⟩
  · simp only [hp, Bool.false_eq_true, if_false]
    exact ⟨_, _, _, rfl⟩

theorem pp_noKey (env : Env) (cs : Caches) (mt region : String)
    (pn : Option (List String)) (h : keyTruthy env.key = false) :
    ∃ res, providersParam env cs mt region pn = (res, []) := by
  unfold providersParam
  by_cases hp : listTruthy pn
  · simp only [hp, if_true]
    obtain ⟨res, hrp⟩ := rp_noKey env mt region h (pn.getD []) cs.pc
    rw [hrp]
    cases res with
    | error e => exact ⟨_, rfl⟩
    | ok v =>
      obtain ⟨pids, pc2⟩ := v
      dsimp only
      by_cases hpe : pids.isEmpty
      · simp only [hpe, if_true]
        exact ⟨_, rfl⟩
      · simp only [hpe, Bool.false_eq_true, if_false]
        exact ⟨_, rfl⟩
  · simp only [hp, Bool.false_eq_true, if_false]
    exact ⟨_, rfl⟩

theorem gpar_ok (env : Env) (cs1 : Caches) (mt : String)
    (gs : Option (List String)) (h : keyTruthy env.key = true) :
    ∃ v cs2 tr, genresParam env cs1 mt gs = (.ok (v, cs2), tr) := by
  unfold genresParam
  by_cases hg : listTruthy gs
  · simp only [hg, if_true]
    obtain ⟨gmap, gc2, tr, heg⟩ := eg_ok env cs1.gc mt h
    rw [heg]
    dsimp only
    by_cases hge : (genreIds gmap (gs.getD [])).isEmpty
    · simp only [hge, if_true]
      exact ⟨_, _, _, rfl⟩
    · simp only [hge, Bool.false_eq_true, if_false]
      exact ⟨_, _, _, rfl⟩
  · simp only [hg, Bool.false_eq_true, if_false]
    exact ⟨_, _, _, rfl⟩

theorem gpar_noKey (env : Env) (cs1 : Caches) (mt : String)
    (gs : Option (List String)) (h : keyTruthy env.key = false) :
    ∃ res, genresParam env cs1 mt gs = (res, []) := by
  unfold genresParam
  by_cases hg : listTruthy gs
  · simp only [hg, if_true]
    obtain ⟨res, gc2, heg⟩ := eg_noKey_shape env cs1.gc mt h
    rw [heg]
    cases res with
    | error e => exact ⟨_, rfl⟩
    | ok gmap =>
      dsimp only
      by_cases hge : (genreIds gmap (gs.getD [])).isEmpty
      · simp only [hge, if_true]
        exact ⟨_, rfl⟩
      · simp only [hge, Bool.false_eq_true, if_false]
        exact ⟨_, rfl⟩
  · simp only [hg, Bool.false_eq_true, if_false]
    exact ⟨_, rfl⟩

theorem params_ok (env : Env) (cs : Caches) (mt region : String)
    (mrt : Option Int) (pn gs : Option (List String))
    (olang prb : Option String) (page : Int)
    (h : keyTruthy env.key = true) :
    ∃ P cs2 tr,
      discoverParamsSt env cs mt region mrt pn gs olang prb page
        = (.ok P, cs2, tr) := by
  unfold discoverParamsSt
  obtain ⟨v, cs1, tr1, hpp⟩ := pp_ok env cs mt region pn h
  rw [hpp]
  dsimp only
  obtain ⟨w, cs2, tr2, hgp⟩ := gpar_ok env cs1 mt gs h
  rw [hgp]
  exact ⟨_, _, _, rfl⟩

theorem params_noKey (env : Env) (cs : Caches) (mt region : String)
    (mrt : Option Int) (pn gs : Option (List String))
    (olang prb : Option String) (page : Int)
    (h : keyTruthy env.key = false) :
    ∃ res cs2,
      discoverParamsSt env cs mt region mrt pn gs olang prb page
        = (res, cs2, []) := by
  unfold discoverParamsSt
  obtain ⟨res, hpp⟩ := pp_noKey env cs mt region pn h
  rw [hpp]
  cases res with
  | error e => exact ⟨_, _, rfl⟩
  | ok v =>
    obtain ⟨wwp, cs1⟩ := v
    dsimp only
    obtain ⟨res2, hgp⟩ := gpar_noKey env cs1 mt gs h
    rw [hgp]
    cases res2 with
    | error e => exact ⟨_, _, rfl⟩
    | ok w =>
      obtain ⟨wg, cs2⟩ := w
      exact ⟨_, _, rfl⟩

theorem loop_ok (env : Env) (ep mt : String) (pageArg maxp : Int)
    (h : keyTruthy env.key = true) :
    ∀ (fuel : Nat) (p : Int),
      ∃ items tr,
        discoverLoop env ep mt pageArg maxp p fuel = (.ok items, tr) := by
  intro fuel
  induction fuel with
  | zero => exact fun p => ⟨[], [], rfl⟩
  | succ n ih =>
    intro p
    obtain ⟨body, tr, hf⟩ :=
      fetch_ok_of_key h ep (some p) (env.net.discover ep p)
    cases body with
    | none =>
      refine ⟨[], tr, ?_⟩
      unfold discoverLoop
      rw [hf]
    | some d =>
      by_cases hstop : p ≥ d.total_pages.getD 1 ∨ p ≥ pageArg + maxp - 1
      · refine ⟨(d.results.getD []).map (fun it => normalize_item it mt), tr, ?_⟩
        unfold discoverLoop
        rw [hf]
        dsimp only
        rw [if_pos hstop]
      · obtain ⟨more, tr2, hloop⟩ := ih (p + 1)
        refine ⟨(d.results.getD []).map (fun it => normalize_item it mt) ++ more,
          tr ++ tr2, ?_⟩
        unfold discoverLoop
        rw [hf]
        dsimp only
        rw [if_neg hstop, hloop]

theorem loop_noKey (env : Env) (ep mt : String) (pageArg maxp : Int)
    (h : keyTruthy env.key = false) (fuel : Nat) (hfuel : fuel ≠ 0) (p : Int) :
    discoverLoop env ep mt pageArg maxp p fuel
      = (.error .apiKeyNotSet, []) := by
  cases fuel with
  | zero => exact absurd rfl hfuel
  | succ n =>
    unfold discoverLoop
    rw [fetch_noKey h]

theorem discover_ok (env : Env) (cs : Caches) (mt region : String)
    (mrt : Option Int) (pn gs : Option (List String))
    (lang olang prb : Option String) (page maxp : Int)
    (h : keyTruthy env.key = true) :
    ∃ items cs2 tr,
      discover_media_with_filters env cs mt region mrt pn gs lang olang prb
        page maxp = (.ok items, cs2, tr) := by
  unfold discover_media_with_filters
  obtain ⟨P, cs2, tr, hps⟩ := params_ok env cs mt region mrt pn gs olang prb page h
  rw [hps]
  dsimp only
  obtain ⟨items, tr2, hloop⟩ :=
    loop_ok env (discoverEndpoint mt) mt page maxp h maxp.toNat page
  rw [hloop]
  exact ⟨_, _, _, rfl⟩

theorem discover_noKey (env : Env) (cs : Caches) (mt region : String)
    (mrt : Option Int) (pn gs : Option (List String))
    (lang olang prb : Option String) (page maxp : Int)
    (h : keyTruthy env.key = false) (hmp : 1 ≤ maxp) :
    (discover_media_with_filters env cs mt region mrt pn gs lang olang prb
        page maxp).1 = .error .apiKeyNotSet
      ∧ (discover_media_with_filters env cs mt region mrt pn gs lang olang prb
        page maxp).2.2 = [] := by
  unfold discover_media_with_filters
  obtain ⟨res, cs2, hps⟩ := params_noKey env cs mt region mrt pn gs olang prb page h
  rw [hps]
  cases res with
  | error e =>
    cases e
    exact ⟨rfl, rfl⟩
  | ok P =>
    dsimp only
    rw [loop_noKey env (discoverEndpoint mt) mt page maxp h maxp.toNat
      (by omega) page]
    exact ⟨rfl, rfl⟩

theorem search_ok (env : Env) (q mt : String) (mr : Int)
    (h : keyTruthy env.key = true) :
    ∃ items tr, search_fallback env q mt mr = (.ok items, tr) := by
  unfold search_fallback
  dsimp only
  obtain ⟨body, tr, hf⟩ := fetch_ok_of_key h (searchEndpoint mt) (some 1)
    (env.net.search (searchEndpoint mt) 1)
  rw [hf]
  exact ⟨_, _, rfl⟩

theorem search_noKey (env : Env) (q mt : String) (mr : Int)
    (h : keyTruthy env.key = false) :
    search_fallback env q mt mr = (.error .apiKeyNotSet, []) := by
  unfold search_fallback
  dsimp only
  rw [fetch_noKey h]

end Tools

section Claims

open Tools Fx

/-- C1: whenever the HTTP request for a page issued by
`discover_media_with_filters` fails (HTTP error status,
network/transport error, or invalid JSON body), the failure is caught
inside `fetch_tmdb`, a warning is logged, and the body is treated as
empty; consequently, with an initialized API key the discover call
always returns a list (never propagating a transport exception), and
a failure on the first requested page yields the empty list. -/
theorem C1_transport_failures_absorbed (env : Env) (cs : Caches)
    (mt region : String) (mrt : Option Int) (pn gs : Option (List String))
    (lang olang prb : Option String) (page maxp : Int)
    (h : keyTruthy env.key = true) :
    (∀ (α : Type) (ep : String) (pg : Option Int) (oc : TmdbOutcome α),
        failingB oc = true →
        fetch_tmdb env.key ep pg oc = (.ok none, [.req ep pg, .warn]))
    ∧ (∃ items cs2 tr,
        discover_media_with_filters env cs mt region mrt pn gs lang olang prb
          page maxp = (.ok items, cs2, tr))
    ∧ (failingB (env.net.discover (discoverEndpoint mt) page) = true →
        (discover_media_with_filters env cs mt region mrt pn gs lang olang prb
          page maxp).1 = .ok []) := by
  refine ⟨fun α ep pg oc hf => fetch_fail h ep pg hf,
    discover_ok env cs mt region mrt pn gs lang olang prb page maxp h,
    fun hfail => ?_⟩
  unfold discover_media_with_filters
  obtain ⟨P, cs2, tr, hps⟩ :=
    params_ok env cs mt region mrt pn gs olang prb page h
  rw [hps]
  dsimp only
  cases hmp : maxp.toNat with
  | zero => rfl
  | succ n =>
    have hf := fetch_fail h (discoverEndpoint mt) (some page) hfail
    unfold discoverLoop
    rw [hf]

/-- C1 witness: on a network where every request fails with an HTTP
error, `discover_media_with_filters` (with an initialized key) returns
the empty list and `fetch_tmdb` returns the absorbed empty body with a
request and a warning event. -/
theorem C1_transport_failures_absorbed_witness :
    (discover_media_with_filters envFail csCold "movie" "IN" none none none
        none none none 1 1).1 = .ok []
      ∧ fetch_tmdb envFail.key "/discover/movie" (some 1)
          (TmdbOutcome.httpError (α := DiscoverPayload))
        = (.ok none, [.req "/discover/movie" (some 1), .warn]) := by
  have h := C1_transport_failures_absorbed envFail csCold "movie" "IN" none
    none none none none none 1 1 (by decide)
  exact ⟨h.2.2 (by decide), h.1 DiscoverPayload "/discover/movie" (some 1)
    TmdbOutcome.httpError (by decide)⟩

/-- C8: with an uninitialized (or empty) API key, `fetch_tmdb` raises
`RuntimeError` before issuing any HTTP request (empty event trace),
and so do `discover_media_with_filters` (which always reaches the
network when at least one page is requested), `search_fallback`,
`get_provider_id_by_name` on a cache miss (truthy name and refresh
condition), and `ensure_genres` on a cache miss; once the key is
initialized to a non-empty string, the error branch is unreachable:
every one of these operations returns normally. -/
theorem C8_missing_key_raises_before_request (env : Env) (cs : Caches)
    (mt region q : String) (mrt : Option Int) (pn gs : Option (List String))
    (lang olang prb : Option String) (page maxp mr : Int)
    (nm : Option String) :
    (keyTruthy env.key = false →
      (∀ (α : Type) (ep : String) (pg : Option Int) (oc : TmdbOutcome α),
          fetch_tmdb env.key ep pg oc = (.error .apiKeyNotSet, []))
      ∧ (1 ≤ maxp →
          (discover_media_with_filters env cs mt region mrt pn gs lang olang
            prb page maxp).1 = .error .apiKeyNotSet
          ∧ (discover_media_with_filters env cs mt region mrt pn gs lang olang
            prb page maxp).2.2 = [])
      ∧ search_fallback env q mt mr = (.error .apiKeyNotSet, [])
      ∧ (strTruthy nm = true → pRefreshCond env cs.pc mt = true →
          get_provider_id_by_name env cs.pc nm mt region
            = (.error .apiKeyNotSet, cs.pc, []))
      ∧ (gServeCond env cs.gc mt = false →
          ensure_genres env cs.gc mt = (.error .apiKeyNotSet, cs.gc, [])))
    ∧ (keyTruthy env.key = true →
      (∀ (α : Type) (ep : String) (pg : Option Int) (oc : TmdbOutcome α),
          exOk (fetch_tmdb env.key ep pg oc).1 = true)
      ∧ exOk (discover_media_with_filters env cs mt region mrt pn gs lang
          olang prb page maxp).1 = true
      ∧ exOk (search_fallback env q mt mr).1 = true
      ∧ exOk (get_provider_id_by_name env cs.pc nm mt region).1 = true
      ∧ exOk (ensure_genres env cs.gc mt).1 = true) := by
  constructor
  · intro h
    refine ⟨fun α ep pg oc => fetch_noKey h ep pg oc,
      fun hmp => discover_noKey env cs mt region mrt pn gs lang olang prb
        page maxp h hmp,
      search_noKey env q mt mr h,
      fun hs hr => gp_noKey_miss env cs.pc nm mt region h hs hr,
      fun hc => eg_noKey env cs.gc mt h hc⟩
  · intro h
    refine ⟨?_, ?_, ?_, ?_, ?_⟩
    · intro α ep pg oc
      obtain ⟨body, tr, hf⟩ := fetch_ok_of_key h ep pg oc
      rw [hf]
      rfl
    · obtain ⟨items, cs2, tr, hd⟩ :=
        discover_ok env cs mt region mrt pn gs lang olang prb page maxp h
      rw [hd]
      rfl
    · obtain ⟨items, tr, hsf⟩ := search_ok env q mt mr h
      rw [hsf]
      rfl
    · obtain ⟨r, pc2, tr, hgp⟩ := gp_ok env cs.pc nm mt region h
      rw [hgp]
      rfl
    · obtain ⟨g, gc2, tr, heg⟩ := eg_ok env cs.gc mt h
      rw [heg]
      rfl

/-- C8 witness: with no key set, the discover call (one page) and the
search call raise `RuntimeError` with an empty request trace; with a
non-empty key they return normally. -/
theorem C8_missing_key_raises_before_request_witness :
    ((discover_media_with_filters envNoKey csCold "movie" "IN" none none none
        none none none 1 1).1 = .error .apiKeyNotSet
      ∧ (discover_media_with_filters envNoKey csCold "movie" "IN" none none
        none none none none 1 1).2.2 = [])
    ∧ search_fallback envNoKey "q" "movie" 10 = (.error .apiKeyNotSet, [])
    ∧ exOk (discover_media_with_filters envOk csCold "movie" "IN" none none
        none none none none 1 1).1 = true := by
  have h1 := (C8_missing_key_raises_before_request envNoKey csCold "movie"
    "IN" "q" none none none none none none 1 1 10 none).1 (by decide)
  have h2 := (C8_missing_key_raises_before_request envOk csCold "movie"
    "IN" "q" none none none none none none 1 1 10 none).2 (by decide)
  exact ⟨h1.2.1 (by decide), h1.2.2.1, h2.2.1⟩

end Claims

namespace Tools

theorem asf_runtime (mt : String) (mrt : Option Int) (olang prb : Option String)
    (ps : DiscoverParams) :
    (applyScalarFilters mt mrt olang prb ps).with_runtime_lte
      = if intTruthy mrt ∧ (mt = "movie" ∨ mt = "tv") then mrt
        else ps.with_runtime_lte := by
  unfold applyScalarFilters
  dsimp only
  split_ifs <;> simp_all

theorem asf_olang (mt : String) (mrt : Option Int) (olang prb : Option String)
    (ps : DiscoverParams) :
    (applyScalarFilters mt mrt olang prb ps).with_original_language
      = if strTruthy olang then olang else ps.with_original_language := by
  unfold applyScalarFilters
  dsimp only
  split_ifs <;> simp_all

theorem params_shape (env : Env) (cs : Caches) (mt region : String)
    (mrt : Option Int) (pn gs : Option (List String))
    (olang prb : Option String) (page : Int) (P : DiscoverParams)
    (cs2 : Caches) (tr : List Ev)
    (hP : discoverParamsSt env cs mt region mrt pn gs olang prb page
        = (.ok P, cs2, tr)) :
    ∃ ps2, P = applyScalarFilters mt mrt olang prb ps2
      ∧ ps2.with_runtime_lte = none
      ∧ ps2.with_original_language = none := by
  unfold discoverParamsSt at hP
  rcases hq : providersParam env cs mt region pn with ⟨res1, tr1⟩
  rw [hq] at hP
  cases res1 with
  | error e => simp at hP
  | ok v =>
    obtain ⟨wwp, cs1⟩ := v
    dsimp only at hP
    rcases hg : genresParam env cs1 mt gs with ⟨res2, tr2⟩
    rw [hg] at hP
    cases res2 with
    | error e => simp at hP
    | ok w =>
      obtain ⟨wg, csg⟩ := w
      dsimp only at hP
      injection hP with h1 h2
      injection h1 with h1
      exact ⟨_, h1.symm, rfl, rfl⟩

end Tools

section ClaimsB

open Tools Fx

/-- C3 (amended): `discover_media_with_filters` passes its scalar
filters through unchanged, with the Python-truthiness caveat: whenever
`max_runtime_minutes` is supplied as a positive integer, the request
parameters contain `with_runtime.lte` equal to it (for both movie and
tv media types); whenever `original_language` is supplied as a
non-empty string, the request parameters contain
`with_original_language` equal to it; when either argument is absent
(or `original_language` is the empty string, which the code treats as
absent), the corresponding parameter is omitted. -/
theorem C3_scalar_filters_passthrough (env : Env) (cs : Caches)
    (mt region : String) (mrt : Option Int) (pn gs : Option (List String))
    (olang prb : Option String) (page : Int) (P : DiscoverParams)
    (cs2 : Caches) (tr : List Ev)
    (hP : discoverParamsSt env cs mt region mrt pn gs olang prb page
        = (.ok P, cs2, tr)) :
    ((mt = "movie" ∨ mt = "tv") → ∀ r : Int, mrt = some r → 0 < r →
        P.with_runtime_lte = some r)
    ∧ (mrt = none → P.with_runtime_lte = none)
    ∧ (∀ s, olang = some s → s ≠ "" → P.with_original_language = some s)
    ∧ (olang = none → P.with_original_language = none) := by
  obtain ⟨ps2, hPeq, hrt, hol⟩ :=
    params_shape env cs mt region mrt pn gs olang prb page P cs2 tr hP
  subst hPeq
  refine ⟨?_, ?_, ?_, ?_⟩
  · intro hmt r hr hpos
    rw [asf_runtime, if_pos ⟨by simp [intTruthy, hr]; omega, hmt⟩, hr]
  · intro hr
    rw [asf_runtime, hrt]
    simp [hr, intTruthy]
  · intro s hs hne
    rw [asf_olang, hs]
    simp [strTruthy, hne]
  · intro hs
    rw [asf_olang, hol]
    simp [hs, strTruthy]

/-- C3 witness: with `max_runtime_minutes = 100` and
`original_language = "ja"` on a movie discover call, the built params
carry `with_runtime.lte = 100` and `with_original_language = "ja"`;
with both absent they are omitted. -/
theorem C3_scalar_filters_passthrough_witness :
    ∃ P cs2 tr,
      discoverParamsSt envOk csCold "movie" "IN" (some 100) none none
        (some "ja") none 1 = (.ok P, cs2, tr)
      ∧ P.with_runtime_lte = some 100
      ∧ P.with_original_language = some "ja" := by
  have hP : discoverParamsSt envOk csCold "movie" "IN" (some 100) none none
      (some "ja") none 1
      = (.ok (applyScalarFilters "movie" (some 100) (some "ja") none
          (baseParams 1)), csCold, []) := rfl
  have h := C3_scalar_filters_passthrough envOk csCold "movie" "IN"
    (some 100) none none (some "ja") none 1 _ _ _ hP
  exact ⟨_, _, _, hP, h.1 (Or.inl rfl) 100 rfl (by omega),
    h.2.2.1 "ja" rfl (by decide)⟩

/-- C3 counterexample: `original_language` supplied as the empty
string is dropped: the discover params omit `with_original_language`
instead of containing the supplied value, refuting the unqualified
pass-through reading of the claim. -/
theorem C3_scalar_filters_passthrough_counterexample :
    (discoverParamsSt envOk csCold "movie" "IN" none none none (some "")
        none 1).1 = .ok (baseParams 1)
      ∧ (baseParams 1).with_original_language = none
      ∧ (baseParams 1).with_original_language ≠ some "" := by
  exact ⟨rfl, rfl, by decide⟩

end ClaimsB

namespace Tools

theorem asf_providers (mt : String) (mrt : Option Int)
    (olang prb : Option String) (ps : DiscoverParams) :
    (applyScalarFilters mt mrt olang prb ps).with_watch_providers
        = ps.with_watch_providers
      ∧ (applyScalarFilters mt mrt olang prb ps).watch_region = ps.watch_region
      ∧ (applyScalarFilters mt mrt olang prb ps).with_genres = ps.with_genres := by
  unfold applyScalarFilters
  dsimp only
  split_ifs <;> simp_all

theorem pp_warm (env : Env) (cs : Caches) (mt region : String)
    (pl : List String) (hw : pWarm env cs.pc mt) :
    providersParam env cs mt region (some pl)
      = (.ok ((if (pl.filterMap
            (resolvedPid ((dget cs.pc.entries mt).getD []))).isEmpty
          then none
          else some (String.intercalate ","
            (pl.filterMap (resolvedPid ((dget cs.pc.entries mt).getD []))))),
          cs), []) := by
  unfold providersParam
  by_cases hpl : pl.isEmpty
  · have hlt : listTruthy (some pl) = false := by
      simp [listTruthy, hpl]
    rw [hlt]
    have hplnil : pl = [] := List.isEmpty_iff.mp hpl
    subst hplnil
    simp
  · have hlt : listTruthy (some pl) = true := by
      simp [listTruthy]
      exact fun hc => hpl (by simp [hc, List.isEmpty_nil])
    rw [hlt]
    simp only [if_true]
    rw [Option.getD_some, rp_warm env mt region cs.pc hw pl]
    dsimp only
    by_cases hre : (pl.filterMap
        (resolvedPid ((dget cs.pc.entries mt).getD []))).isEmpty
    · simp [hre]
    · simp [hre]

theorem gpar_warm (env : Env) (cs1 : Caches) (mt : String)
    (gl : List String) (hw : gWarm env cs1.gc mt) :
    genresParam env cs1 mt (some gl)
      = (.ok ((if (genreIds ((dget cs1.gc.entries mt).getD []) gl).isEmpty
          then none
          else some (String.intercalate ","
            (genreIds ((dget cs1.gc.entries mt).getD []) gl))), cs1), []) := by
  unfold genresParam
  by_cases hgl : gl.isEmpty
  · have hlt : listTruthy (some gl) = false := by
      simp [listTruthy, hgl]
    rw [hlt]
    have hglnil : gl = [] := List.isEmpty_iff.mp hgl
    subst hglnil
    simp [genreIds]
  · have hlt : listTruthy (some gl) = true := by
      simp [listTruthy]
      exact fun hc => hgl (by simp [hc, List.isEmpty_nil])
    rw [hlt]
    simp only [if_true]
    rw [eg_warm env cs1.gc mt hw]
    dsimp only
    rw [Option.getD_some]
    by_cases hge : (genreIds ((dget cs1.gc.entries mt).getD []) gl).isEmpty
    · simp [hge]
    · simp [hge]

end Tools

section ClaimsC

open Tools Fx

/-- C2: with warm caches (so that name resolution is a pure lookup),
`discover_media_with_filters` silently drops every provider name and
every genre name that fails to resolve — no error is raised, no event
is emitted, the caches are unchanged — and builds the request from the
ids that did resolve, in order; when no provider name resolves the
`with_watch_providers` and `watch_region` parameters are omitted
entirely, and when no genre name resolves `with_genres` is omitted
entirely. -/
theorem C2_unresolved_names_silently_dropped (env : Env) (cs : Caches)
    (mt region : String) (mrt : Option Int) (olang prb : Option String)
    (page : Int) (pl gl : List String)
    (hp : pWarm env cs.pc mt) (hg : gWarm env cs.gc mt) :
    ∃ P, discoverParamsSt env cs mt region mrt (some pl) (some gl) olang prb
        page = (.ok P, cs, [])
      ∧ P.with_watch_providers
          = (if (pl.filterMap
              (resolvedPid ((dget cs.pc.entries mt).getD []))).isEmpty
            then none
            else some (String.intercalate ","
              (pl.filterMap (resolvedPid ((dget cs.pc.entries mt).getD [])))))
      ∧ P.watch_region
          = (if (pl.filterMap
              (resolvedPid ((dget cs.pc.entries mt).getD []))).isEmpty
            then none else some region)
      ∧ P.with_genres
          = (if (genreIds ((dget cs.gc.entries mt).getD []) gl).isEmpty
            then none
            else some (String.intercalate ","
              (genreIds ((dget cs.gc.entries mt).getD []) gl))) := by
  unfold discoverParamsSt
  rw [pp_warm env cs mt region pl hp]
  dsimp only
  rw [gpar_warm env cs mt gl hg]
  dsimp only
  refine ⟨_, rfl, ?_, ?_, ?_⟩
  · exact (asf_providers mt mrt olang prb _).1
  · rw [(asf_providers mt mrt olang prb _).2.1]
    by_cases hre : (pl.filterMap
        (resolvedPid ((dget cs.pc.entries mt).getD []))).isEmpty
    · simp [hre]
    · simp [hre]
  · exact (asf_providers mt mrt olang prb _).2.2

/-- C2 witness: over a warm cache holding providers `netflix` (id 8)
and genres `action` (id 28), the call with provider names
`["netflix", "bogus"]` and genres `["action", "unknown"]` drops the
unresolvable names and keeps ids `8` and `28`. -/
theorem C2_unresolved_names_silently_dropped_witness :
    ∃ P, discoverParamsSt envOk csWarm "movie" "IN" none
        (some ["netflix", "bogus"]) (some ["action", "unknown"]) none none 1
        = (.ok P, csWarm, [])
      ∧ P.with_watch_providers = some "8"
      ∧ P.watch_region = some "IN"
      ∧ P.with_genres = some "28" := by
  obtain ⟨P, h1, h2, h3, h4⟩ :=
    C2_unresolved_names_silently_dropped envOk csWarm "movie" "IN" none none
      none 1 ["netflix", "bogus"] ["action", "unknown"] (by decide) (by decide)
  refine ⟨P, h1, ?_, ?_, ?_⟩
  · rw [h2]; decide
  · rw [h3]; decide
  · rw [h4]; decide

end ClaimsC

namespace Tools

theorem loop_items_normalized (env : Env) (ep mt : String)
    (pageArg maxp : Int) :
    ∀ (fuel : Nat) (p : Int) (items : List NormalizedItem) (tr : List Ev),
      discoverLoop env ep mt pageArg maxp p fuel = (.ok items, tr) →
      ∀ x ∈ items, ∃ raw, x = normalize_item raw mt := by
  intro fuel
  induction fuel with
  | zero =>
    intro p items tr h x hx
    unfold discoverLoop at h
    simp only [Prod.mk.injEq] at h
    obtain ⟨h1, h2⟩ := h
    injection h1 with h1
    rw [← h1] at hx
    simp at hx
  | succ n ih =>
    intro p items tr h x hx
    unfold discoverLoop at h
    rcases hf : fetch_tmdb env.key ep (some p) (env.net.discover ep p)
      with ⟨res, tr1⟩
    rw [hf] at h
    cases res with
    | error e => simp at h
    | ok body =>
      cases body with
      | none =>
        dsimp only at h
        simp only [Prod.mk.injEq] at h
        obtain ⟨h1, h2⟩ := h
        injection h1 with h1
        rw [← h1] at hx
        simp at hx
      | some d =>
        dsimp only at h
        by_cases hstop : p ≥ d.total_pages.getD 1 ∨ p ≥ pageArg + maxp - 1
        · rw [if_pos hstop] at h
          simp only [Prod.mk.injEq] at h
          obtain ⟨h1, h2⟩ := h
          injection h1 with h1
          rw [← h1] at hx
          obtain ⟨raw, hmem, hxeq⟩ := List.mem_map.mp hx
          exact ⟨raw, hxeq.symm⟩
        · rw [if_neg hstop] at h
          rcases hl : discoverLoop env ep mt pageArg maxp (p + 1) n
            with ⟨res2, tr2⟩
          rw [hl] at h
          cases res2 with
          | error e => simp at h
          | ok more =>
            dsimp only at h
            simp only [Prod.mk.injEq] at h
            obtain ⟨h1, h2⟩ := h
            injection h1 with h1
            rw [← h1] at hx
            rcases List.mem_append.mp hx with hmem | hmem
            · obtain ⟨raw, _, hxeq⟩ := List.mem_map.mp hmem
              exact ⟨raw, hxeq.symm⟩
            · exact ih (p + 1) more tr2 hl x hmem

end Tools

section ClaimsD

open Tools Fx

/-- C4 (amended): every element of the lists returned by
`discover_media_with_filters` and `search_fallback` is
`normalize_item` applied to some raw item with the requested media
type as default, so it carries all of the fields `id`, `title`,
`poster_path`, `overview`, `release_date`, `media_type` and
`vote_average`; its `media_type` equals the raw media type when that
is present and non-empty and otherwise the requested default, and
`release_date` falls back to the raw `first_air_date` when
`release_date` is missing. -/
theorem C4_normalized_item_shape :
    (∀ (raw : RawItem) (d : String),
        (normalize_item raw d).id = raw.id
        ∧ (normalize_item raw d).poster_path = raw.poster_path
        ∧ (normalize_item raw d).overview = raw.overview
        ∧ (normalize_item raw d).vote_average = raw.vote_average)
    ∧ (∀ (raw : RawItem) (d s : String), raw.media_type = some s → s ≠ "" →
        (normalize_item raw d).media_type = s)
    ∧ (∀ (raw : RawItem) (d : String),
        raw.media_type = none ∨ raw.media_type = some "" →
        (normalize_item raw d).media_type = d)
    ∧ (∀ (raw : RawItem) (d : String), raw.release_date = none →
        (normalize_item raw d).release_date = raw.first_air_date)
    ∧ (∀ (env : Env) (cs : Caches) (mt region : String) (mrt : Option Int)
        (pn gs : Option (List String)) (lang olang prb : Option String)
        (page maxp : Int) (items : List NormalizedItem) (cs2 : Caches)
        (tr : List Ev),
        discover_media_with_filters env cs mt region mrt pn gs lang olang prb
          page maxp = (.ok items, cs2, tr) →
        ∀ x ∈ items, ∃ raw, x = normalize_item raw mt)
    ∧ (∀ (env : Env) (q mt : String) (mr : Int) (items : List NormalizedItem)
        (tr : List Ev), search_fallback env q mt mr = (.ok items, tr) →
        ∀ x ∈ items, ∃ raw, x = normalize_item raw mt) := by
  refine ⟨fun raw d => ⟨rfl, rfl, rfl, rfl⟩, ?_, ?_, ?_, ?_, ?_⟩
  · intro raw d s hs hne
    simp [normalize_item, pyOrDefault, hs, hne]
  · intro raw d hcase
    rcases hcase with hc | hc <;> simp [normalize_item, pyOrDefault, hc]
  · intro raw d hc
    simp [normalize_item, pyOr, strTruthy, hc]
  · intro env cs mt region mrt pn gs lang olang prb page maxp items cs2 tr h
    unfold discover_media_with_filters at h
    rcases hps : discoverParamsSt env cs mt region mrt pn gs olang prb page
      with ⟨res1, csp, trp⟩
    rw [hps] at h
    cases res1 with
    | error e => simp at h
    | ok P =>
      dsimp only at h
      rcases hl : discoverLoop env (discoverEndpoint mt) mt page maxp page
        maxp.toNat with ⟨res2, tr2⟩
      rw [hl] at h
      cases res2 with
      | error e => simp at h
      | ok litems =>
        dsimp only at h
        simp only [Prod.mk.injEq] at h
        obtain ⟨h1, h2⟩ := h
        injection h1 with h1
        rw [← h1]
        exact loop_items_normalized env (discoverEndpoint mt) mt page maxp
          maxp.toNat page litems tr2 hl
  · intro env q mt mr items tr h
    unfold search_fallback at h
    dsimp only at h
    rcases hf : fetch_tmdb env.key (searchEndpoint mt) (some 1)
      (env.net.search (searchEndpoint mt) 1) with ⟨res, tr1⟩
    rw [hf] at h
    cases res with
    | error e => simp at h
    | ok body =>
      dsimp only at h
      simp only [Prod.mk.injEq] at h
      obtain ⟨h1, h2⟩ := h
      injection h1 with h1
      rw [← h1]
      intro x hx
      obtain ⟨raw, _, hxeq⟩ := List.mem_map.mp hx
      exact ⟨raw, hxeq.symm⟩

/-- C4 witness: concrete normalized items — the raw media type wins
when present and non-empty, the default fills in when it is missing,
`release_date` falls back to `first_air_date`, and a concrete
successful discover run returns only normalized items. -/
theorem C4_normalized_item_shape_witness :
    (normalize_item rawA "tv").media_type = "movie"
    ∧ (normalize_item rawB "movie").media_type = "movie"
    ∧ (normalize_item rawB "movie").release_date = rawB.first_air_date
    ∧ (∃ raw, normalize_item rawA "movie" = normalize_item raw "movie") := by
  have h := C4_normalized_item_shape
  have hd : discover_media_with_filters envOk csCold "movie" "IN" none none
      none none none none 1 1
      = (.ok [normalize_item rawA "movie", normalize_item rawB "movie"],
         csCold, [.req "/discover/movie" (some 1)]) := rfl
  refine ⟨h.2.1 rawA "tv" "movie" rfl (by decide),
    h.2.2.1 rawB "movie" (Or.inl rfl),
    h.2.2.2.1 rawB "movie" rfl,
    h.2.2.2.2.1 envOk csCold "movie" "IN" none none none none none none 1 1 _
      _ _ hd (normalize_item rawA "movie") ?_⟩
  exact List.mem_cons_self _ _

/-- C4 counterexample: a raw item whose `media_type` key holds the
empty string: the key is present, yet the normalized `media_type` is
the requested default rather than the raw value, refuting the claim
as stated. -/
theorem C4_normalized_item_shape_counterexample :
    rawEmptyMt.media_type = some ""
      ∧ (normalize_item rawEmptyMt "movie").media_type = "movie"
      ∧ (normalize_item rawEmptyMt "movie").media_type ≠ "" := by
  exact ⟨rfl, rfl, by decide⟩

end ClaimsD

namespace Tools

theorem fetch_ok_trace {α : Type} {key : Option String}
    (h : keyTruthy key = true) (ep : String) (pg : Option Int)
    (oc : TmdbOutcome α) :
    ∃ body rest, fetch_tmdb key ep pg oc = (.ok body, .req ep pg :: rest) := by
  cases oc <;> simp [fetch_tmdb, h]

theorem pRefresh_of_not_warm (env : Env) (pc : PCache) (mt : String)
    (hw : ¬ pWarm env pc mt) : pRefreshCond env pc mt = true := by
  unfold pWarm at hw
  unfold pRefreshCond
  cases he : pEntryTruthy pc mt with
  | false => rfl
  | true =>
    simp only [he, Bool.not_true, Bool.false_or, decide_eq_true_eq]
    push_neg at hw
    exact hw he

theorem gServe_false_of_miss (env : Env) (gc : GCache) (mt : String)
    (hm : gc.timestamp = 0 ∨ env.now - gc.timestamp ≥ 24 * 3600
      ∨ gEntryTruthy gc mt = false) :
    gServeCond env gc mt = false := by
  unfold gServeCond
  rcases hm with hc | hc | hc
  · simp [hc]
  · simp only [Bool.and_eq_false_imp, decide_eq_true_eq, decide_eq_false_iff_not]
    intro h1
    have hb := (Bool.and_eq_true_iff.mp h1).2
    simp only [decide_eq_true_eq] at hb
    exact absurd hb (by omega)
  · simp [hc]

end Tools

section ClaimsE

open Tools Fx

/-- C5 (amended): the caches are lazily populated with a 24-hour TTL,
with an asymmetric boundary. A provider lookup (truthy name) serves
purely from the cache — unchanged state, no request — exactly while
the entry for the requested media type is populated and at most
24*3600 seconds old, and performs a network fetch when it is
unpopulated or strictly older; a genre lookup serves from the cache
while the timestamp is set, strictly younger than 24*3600 seconds,
and the entry populated, and performs a network fetch when the
timestamp is unset, the entry unpopulated, or the age is at least
24*3600 seconds (so the boundary age of exactly 24 hours refetches
genres but not providers). -/
theorem C5_cache_ttl (env : Env) (pc : PCache) (gc : GCache)
    (mt region : String) (nm : Option String) (n : String) :
    (pWarm env pc mt →
        get_provider_id_by_name env pc (some n) mt region
          = (.ok (if n = "" then none
              else providerLookup ((dget pc.entries mt).getD [])
                (lowerStr (stripStr n))), pc, []))
    ∧ (keyTruthy env.key = true → strTruthy nm = true → ¬ pWarm env pc mt →
        ∃ rest, (get_provider_id_by_name env pc nm mt region).2.2
          = .req (provEndpoint mt) (some 1) :: rest)
    ∧ (gWarm env gc mt →
        ensure_genres env gc mt = (.ok ((dget gc.entries mt).getD []), gc, []))
    ∧ (keyTruthy env.key = true →
        (gc.timestamp = 0 ∨ env.now - gc.timestamp ≥ 24 * 3600
          ∨ gEntryTruthy gc mt = false) →
        ∃ rest, (ensure_genres env gc mt).2.2
          = .req (genreEndpoint mt) none :: rest) := by
  refine ⟨gp_warm env pc n mt region, ?_, eg_warm env gc mt, ?_⟩
  · intro hk hs hw
    have hr := pRefresh_of_not_warm env pc mt hw
    unfold get_provider_id_by_name
    simp only [hs, hr, Bool.not_true, Bool.false_eq_true, if_false, if_true]
    obtain ⟨body, rest, hf⟩ := fetch_ok_trace hk (provEndpoint mt) (some 1)
      (env.net.providers (provEndpoint mt))
    rw [hf]
    exact ⟨rest, rfl⟩
  · intro hk hm
    have hc := gServe_false_of_miss env gc mt hm
    unfold ensure_genres
    rw [hc]
    simp only [Bool.false_eq_true, if_false]
    obtain ⟨body, rest, hf⟩ := fetch_ok_trace hk (genreEndpoint mt) none
      (env.net.genreList (genreEndpoint mt))
    rw [hf]
    exact ⟨rest, rfl⟩

/-- C5 witness: over warm caches the lookups answer from the cache
with no events; over the cold initial caches both lookups issue a
request. -/
theorem C5_cache_ttl_witness :
    get_provider_id_by_name envOk pcWarm (some "netflix") "movie" "IN"
        = (.ok (some 8), pcWarm, [])
    ∧ ensure_genres envOk gcWarm "movie"
        = (.ok [("action", 28), ("comedy", 35)], gcWarm, [])
    ∧ (∃ rest, (get_provider_id_by_name envOk initPCache (some "netflix")
        "movie" "IN").2.2 = Ev.req "/watch/providers/movie" (some 1) :: rest)
    ∧ (∃ rest, (ensure_genres envOk initGCache "movie").2.2
        = Ev.req "/genre/movie/list" none :: rest) := by
  have h1 := C5_cache_ttl envOk pcWarm gcWarm "movie" "IN" (some "netflix")
    "netflix"
  have h2 := C5_cache_ttl envOk initPCache initGCache "movie" "IN"
    (some "netflix") "netflix"
  refine ⟨?_, ?_, ?_, ?_⟩
  · rw [h1.1 (by decide)]
    rfl
  · rw [h1.2.2.1 (by decide)]
    rfl
  · exact h2.2.1 (by decide) (by decide) (by decide)
  · exact h2.2.2.2 (by decide) (by decide)

/-- C5 counterexample: at an age of exactly 24*3600 seconds the genre
cache entry is populated and not more than 24 hours old, yet
`ensure_genres` performs a network fetch — refuting the claim that a
fetch happens only when the entry is unpopulated or its timestamp
more than 24*3600 seconds old. -/
theorem C5_cache_ttl_counterexample :
    gEntryTruthy gcBoundary "movie" = true
      ∧ envBoundary.now - gcBoundary.timestamp = 24 * 3600
      ∧ ¬ (envBoundary.now - gcBoundary.timestamp > 24 * 3600)
      ∧ (ensure_genres envBoundary gcBoundary "movie").2.2
          = [Ev.req "/genre/movie/list" none] := by
  refine ⟨by decide, by decide, by decide, ?_⟩
  decide

end ClaimsE

namespace Tools

theorem subLookup_eq_find (key : String) :
    ∀ m : List (String × Option Int),
      subLookup key m
        = ((m.find? (fun kv => substrOf key.toList kv.1.toList)).map
            Prod.snd).getD none := by
  intro m
  induction m with
  | nil => rfl
  | cons kv rest ih =>
    obtain ⟨k, v⟩ := kv
    unfold subLookup
    cases hs : substrOf key.toList k.toList with
    | true =>
      have hs2 : substrOf key.data k.data = true := hs
      simp [List.find?_cons, hs2]
    | false =>
      have hs2 : substrOf key.data k.data = false := hs
      simp [List.find?_cons, hs2, ih]

theorem fetch_ok_val {α : Type} {key : Option String}
    (h : keyTruthy key = true) (ep : String) (pg : Option Int)
    (b : Option α) :
    fetch_tmdb key ep pg (.ok b) = (.ok b, [.req ep pg]) := by
  simp [fetch_tmdb, h]

theorem pySlice_nil {β : Type} (n : Int) : pySlice ([] : List β) n = [] := by
  unfold pySlice
  split <;> simp

theorem pySlice_length_le {β : Type} (l : List β) (n : Int) (h : 0 ≤ n) :
    (pySlice l n).length ≤ n.toNat := by
  unfold pySlice
  rw [if_pos h]
  simp [List.length_take]

end Tools

section ClaimsF

open Tools Fx

/-- C9: `get_provider_id_by_name` returns `none` for a `None` or empty
name without touching the cache or the network (state unchanged, no
events); for a non-empty name under a warm cache it answers with the
pure lookup over the stripped, lower-cased key, and that lookup
returns the stored id of the exact key match when the key is present
in the map, and otherwise the stored id of the first entry (in map
iteration order) whose name contains the query as a substring, and
`none` when neither exists. -/
theorem C9_provider_name_resolution (env : Env) (pc : PCache)
    (mt region s : String) :
    (get_provider_id_by_name env pc none mt region = (.ok none, pc, []))
    ∧ (get_provider_id_by_name env pc (some "") mt region = (.ok none, pc, []))
    ∧ (pWarm env pc mt → s ≠ "" →
        get_provider_id_by_name env pc (some s) mt region
          = (.ok (providerLookup ((dget pc.entries mt).getD [])
              (lowerStr (stripStr s))), pc, []))
    ∧ (∀ (m : List (String × Option Int)) (k : String),
        (∀ v, dget m k = some v → providerLookup m k = v)
        ∧ (dget m k = none →
            providerLookup m k
              = ((m.find? (fun kv => substrOf k.toList kv.1.toList)).map
                  Prod.snd).getD none)) := by
  refine ⟨rfl, rfl, ?_, ?_⟩
  · intro hw hne
    rw [gp_warm env pc s mt region hw, if_neg hne]
  · intro m k
    constructor
    · intro v hv
      unfold providerLookup
      rw [hv]
    · intro hv
      unfold providerLookup
      rw [hv]
      exact subLookup_eq_find k m

/-- C9 witness: concrete lookups — a `None`/empty name yields `none`
with no events; over a warm cache `netflix` resolves by exact match
to id 8; in a map without an exact key, `prime` resolves by substring
to the id of `amazon prime video`; an unmatchable key yields `none`. -/
theorem C9_provider_name_resolution_witness :
    get_provider_id_by_name envOk pcWarm none "movie" "IN"
        = (.ok none, pcWarm, [])
    ∧ get_provider_id_by_name envOk pcWarm (some "netflix") "movie" "IN"
        = (.ok (some 8), pcWarm, [])
    ∧ providerLookup [("amazon prime video", some 119)] "prime" = some 119
    ∧ providerLookup [("amazon prime video", some 119)] "zzz" = none := by
  have h := C9_provider_name_resolution envOk pcWarm "movie" "IN" "netflix"
  refine ⟨h.1, ?_, ?_, ?_⟩
  · rw [h.2.2.1 (by decide) (by decide)]
    rfl
  · rw [(h.2.2.2 [("amazon prime video", some 119)] "prime").2 rfl]
    rfl
  · rw [(h.2.2.2 [("amazon prime video", some 119)] "zzz").2 rfl]
    rfl

/-- C10: with an initialized key, `search_fallback` issues exactly one
page-1 search request and returns the normalizations of the first
`max_results` raw results in API order; a failed request or an empty
body yields the empty list; and (for a non-negative `max_results`) the
returned list never exceeds `max_results` elements. -/
theorem C10_search_fallback_truncates (env : Env) (q mt : String) (mr : Int)
    (hk : keyTruthy env.key = true) :
    (∀ d, env.net.search (searchEndpoint mt) 1 = .ok (some d) →
        search_fallback env q mt mr
          = (.ok ((pySlice (d.results.getD []) mr).map
              (fun r => normalize_item r mt)),
             [.req (searchEndpoint mt) (some 1)]))
    ∧ (failingB (env.net.search (searchEndpoint mt) 1) = true →
        search_fallback env q mt mr
          = (.ok [], [.req (searchEndpoint mt) (some 1), .warn]))
    ∧ (env.net.search (searchEndpoint mt) 1 = .ok none →
        search_fallback env q mt mr
          = (.ok [], [.req (searchEndpoint mt) (some 1)]))
    ∧ (0 ≤ mr → ∀ items tr, search_fallback env q mt mr = (.ok items, tr) →
        items.length ≤ mr.toNat) := by
  refine ⟨?_, ?_, ?_, ?_⟩
  · intro d hd
    unfold search_fallback
    dsimp only
    rw [hd, fetch_ok_val hk]
  · intro hf
    unfold search_fallback
    dsimp only
    rw [fetch_fail hk (searchEndpoint mt) (some 1) hf]
    dsimp only
    rw [pySlice_nil]
    rfl
  · intro hd
    unfold search_fallback
    dsimp only
    rw [hd, fetch_ok_val hk]
    dsimp only
    rw [pySlice_nil]
    rfl
  · intro hmr items tr h
    unfold search_fallback at h
    dsimp only at h
    rcases hf : fetch_tmdb env.key (searchEndpoint mt) (some 1)
      (env.net.search (searchEndpoint mt) 1) with ⟨res, tr1⟩
    rw [hf] at h
    cases res with
    | error e => simp at h
    | ok body =>
      dsimp only at h
      simp only [Prod.mk.injEq] at h
      obtain ⟨h1, h2⟩ := h
      injection h1 with h1
      rw [← h1, List.length_map]
      exact pySlice_length_le _ mr hmr

/-- C10 witness: on a network returning two raw results,
`search_fallback` with `max_results = 1` returns exactly the first
normalized item from a single page-1 request, and its length is
bounded by `max_results`. -/
theorem C10_search_fallback_truncates_witness :
    search_fallback envOk "q" "movie" 1
        = (.ok [normalize_item rawA "movie"],
           [.req "/search/movie" (some 1)])
    ∧ (∀ items tr, search_fallback envOk "q" "movie" 1 = (.ok items, tr) →
        items.length ≤ 1) := by
  have h := C10_search_fallback_truncates envOk "q" "movie" 1 (by decide)
  have h1 := h.1 ⟨some [rawA, rawB], some 1⟩ rfl
  constructor
  · rw [h1]
    rfl
  · intro items tr heq
    exact h.2.2.2 (by decide) items tr heq

end ClaimsF

namespace Interp

theorem addUnique_nodup (acc : List String) (x : String)
    (h : acc.Nodup) : (addUnique acc x).Nodup := by
  unfold addUnique
  by_cases hx : x ∈ acc
  · simpa [hx] using h
  · simp only [hx, if_false]
    simp [List.nodup_append, h, hx]

theorem foldl_addUnique_nodup {β : Type} (p : β → Bool) (f : β → String) :
    ∀ (l : List β) (acc : List String), acc.Nodup →
      (l.foldl (fun a x => if p x then addUnique a (f x) else a) acc).Nodup := by
  intro l
  induction l with
  | nil => exact fun acc h => h
  | cons b rest ih =>
    intro acc h
    simp only [List.foldl_cons]
    by_cases hp : p b
    · simp only [hp, if_true]
      exact ih _ (addUnique_nodup acc (f b) h)
    · simp only [hp, Bool.false_eq_true, if_false]
      exact ih _ h

theorem parseGenres_nodup (t : List Char) : (parseGenres t).Nodup := by
  exact foldl_addUnique_nodup (fun g => containsSub t g)
    (fun g => hyphenToSpace g) genreTable [] List.nodup_nil

theorem parseProviders_nodup (t : List Char) : (parseProviders t).Nodup := by
  unfold parseProviders
  have hmain : (providerTable.foldl
      (fun acc kv => if containsSub t kv.1 then addUnique acc kv.2 else acc)
      []).Nodup :=
    foldl_addUnique_nodup (fun kv => containsSub t kv.1)
      (fun kv => kv.2) providerTable [] List.nodup_nil
  by_cases he : (providerTable.foldl
      (fun acc kv => if containsSub t kv.1 then addUnique acc kv.2 else acc)
      []).isEmpty
  · simp only [he, if_true]
    cases afterMarker "on " t with
    | none => exact List.nodup_nil
    | some rest =>
      dsimp only
      cases providerTable.find? (fun kv => kv.1 == String.mk (firstWord rest)) with
      | none => exact List.nodup_nil
      | some kv => exact List.nodup_singleton kv.2
  · simp only [he, Bool.false_eq_true, if_false]
    exact hmain

theorem parseMediaType_mem (t : List Char) :
    parseMediaType t
      ∈ (["any", "movie", "tv", "anime", "documentary"] : List String) := by
  unfold parseMediaType
  cases hf : mediaTypeTable.find?
      (fun row => row.2.any (fun kw => containsSub t kw)) with
  | none => simp
  | some row =>
    have hmem := List.mem_of_find?_eq_some hf
    have htab : ∀ row ∈ mediaTypeTable,
        row.1 ∈ (["any", "movie", "tv", "anime", "documentary"] : List String) := by
      decide
    exact htab row hmem

theorem readNum_pos (t : List Char) (n : Nat) (r : List Char)
    (h : readNum t = some (n, r)) : 0 < n := by
  unfold readNum at h
  by_cases he : (t.takeWhile Char.isDigit).isEmpty
  · simp [he] at h
  · simp only [he, Bool.false_eq_true, if_false] at h
    by_cases hz : (t.takeWhile Char.isDigit).foldl
        (fun a c => a * 10 + (c.toNat - 48)) 0 = 0
    · simp [hz] at h
    · simp only [hz, if_neg, Bool.false_eq_true, if_false] at h
      injection h with h1
      injection h1 with h1 h2
      omega

theorem matchAt_pos (m : String) (u : List Char → Bool) (cs : List Char)
    (n : Nat) (h : matchAt m u cs = some n) : 0 < n := by
  unfold matchAt at h
  by_cases hp : m.toList.isPrefixOf cs
  · simp only [hp, if_true] at h
    cases hr : readNum (skipSpaces (cs.drop m.length)) with
    | none => rw [hr] at h; simp at h
    | some pr =>
      obtain ⟨k, rest⟩ := pr
      rw [hr] at h
      dsimp only at h
      by_cases hu : u (skipSpaces rest)
      · simp only [hu, if_true] at h
        injection h with h1
        subst h1
        exact readNum_pos _ _ _ hr
      · simp [hu] at h
  · rw [if_neg hp] at h
    exact absurd h (by simp)

theorem markersFold_some (u : List Char → Bool) (cs : List Char) (n : Nat) :
    ∀ (ms : List String) (acc : Option Nat),
      ms.foldl (fun acc m =>
        match acc with
        | some k => some k
        | none => matchAt m u cs) acc = some n →
      acc = some n ∨ ∃ m, matchAt m u cs = some n := by
  intro ms
  induction ms with
  | nil => exact fun acc h => Or.inl h
  | cons m rest ih =>
    intro acc h
    simp only [List.foldl_cons] at h
    cases acc with
    | some k =>
      rcases ih (some k) h with h1 | h1
      · exact Or.inl h1
      · exact Or.inr h1
    | none =>
      rcases ih (matchAt m u cs) h with h1 | h1
      · exact Or.inr ⟨m, h1⟩
      · exact Or.inr h1

theorem scanFor_some (f : List Char → Option Nat) (n : Nat) :
    ∀ t : List Char, scanFor f t = some n → ∃ cs, f cs = some n := by
  intro t
  induction t with
  | nil => exact fun h => ⟨[], h⟩
  | cons c rest ih =>
    intro h
    unfold scanFor at h
    cases hf : f (c :: rest) with
    | some k =>
      rw [hf] at h
      exact ⟨c :: rest, hf.trans h⟩
    | none =>
      rw [hf] at h
      exact ih h

theorem findPattern_pos (ms : List String) (u : List Char → Bool)
    (t : List Char) (n : Nat) (h : findPattern ms u t = some n) : 0 < n := by
  unfold findPattern at h
  obtain ⟨cs, hcs⟩ := scanFor_some _ n t h
  rcases markersFold_some u cs n ms none hcs with h1 | ⟨m, h1⟩
  · exact absurd h1 (by simp)
  · exact matchAt_pos m u cs n h1

theorem parseDuration_pos (t : List Char) (d : Nat)
    (h : parseDuration t = some d) : 0 < d := by
  unfold parseDuration at h
  cases h1 : findPattern ["under ", "less than "] unitHours t with
  | some n =>
    rw [h1] at h
    injection h with h2
    have := findPattern_pos _ _ _ _ h1
    omega
  | none =>
    rw [h1] at h
    cases h2 : findPattern ["under "] unitMins t with
    | some n =>
      rw [h2] at h
      injection h with h3
      have := findPattern_pos _ _ _ _ h2
      omega
    | none =>
      rw [h2] at h
      cases h3 : findPattern ["< ", "less than "] unitHours t with
      | some n =>
        rw [h3] at h
        injection h with h4
        have := findPattern_pos _ _ _ _ h3
        omega
      | none => rw [h3] at h; exact absurd h (by simp)

theorem parseLanguage_dub (t : List Char)
    (h : (parseLanguage t).2 = true) : (parseLanguage t).1.isSome = true := by
  unfold parseLanguage at h ⊢
  split_ifs at h ⊢
  all_goals simp_all

end Interp

section ClaimsG

open Interp

/-- C6: the query interpreter `parse` (modelled from the spec, since
its code is not in the repository snapshot) is total — it is a Lean
function defined for every string — and always returns a well-formed
`ParsedQuery`: `media_type` lies in {any, movie, tv, anime,
documentary}, `genres` and `providers` are duplicate-free,
`max_duration_minutes` is a positive integer whenever present, and
`dub_required` is true only when `language` is set. -/
theorem C6_parse_total_wellformed (s : String) :
    (parse s).media_type
        ∈ (["any", "movie", "tv", "anime", "documentary"] : List String)
    ∧ (parse s).genres.Nodup
    ∧ (parse s).providers.Nodup
    ∧ (∀ d, (parse s).max_duration_minutes = some d → 0 < d)
    ∧ ((parse s).dub_required = true → (parse s).language.isSome = true) := by
  unfold parse
  dsimp only
  exact ⟨parseMediaType_mem _, parseGenres_nodup _, parseProviders_nodup _,
    fun d hd => parseDuration_pos _ d hd, fun hdub => parseLanguage_dub _ hdub⟩

/-- C6 witness: on a concrete query the extracted duration is positive
and the dub flag comes with a language. -/
theorem C6_parse_total_wellformed_witness :
    (0 < 120
      ∧ (parse "hindi dubbed movie under 2 hours").max_duration_minutes
          = some 120)
    ∧ (parse "hindi dubbed movie under 2 hours").language.isSome = true := by
  have h := C6_parse_total_wellformed "hindi dubbed movie under 2 hours"
  have hd : (parse "hindi dubbed movie under 2 hours").max_duration_minutes
      = some 120 := rfl
  exact ⟨⟨h.2.2.2.1 120 hd, hd⟩, h.2.2.2.2 rfl⟩

end ClaimsG

section ClaimsH

open Mapper

/-- C7: the mapper fallback ladder (modelled from the spec, since its
code is not in the repository snapshot) preserves its step order.
When the primary discovery call is empty and a title is present, the
title search is the second call issued and every broadened discovery
call (the retry with provider ids and max runtime cleared, assumed
distinct from the primary filter) occurs strictly later; when no
title is present, the mapper skips directly to the broadened call if
broadening is enabled, and terminates with the empty result and only
the primary call if it is disabled. -/
theorem C7_fallback_ladder_order {α : Type} (dOp : MapFilter → List α)
    (sOp : String → List α) (f : MapFilter) (broaden : Bool) (t : String)
    (hempty : dOp f = []) :
    ((mapperLadder dOp sOp f (some t) broaden).2.get? 1
        = some (.titleSearch t)
      ∧ (broadened f ≠ f →
        ∀ i, (mapperLadder dOp sOp f (some t) broaden).2.get? i
            = some (.discover (broadened f)) → 1 < i))
    ∧ (broaden = true →
        mapperLadder dOp sOp f none true
          = (dOp (broadened f), [.discover f, .discover (broadened f)]))
    ∧ (broaden = false →
        mapperLadder dOp sOp f none false = ([], [.discover f])) := by
  have hne : (dOp f).isEmpty = true := by simp [hempty]
  refine ⟨⟨?_, ?_⟩, ?_, ?_⟩
  · unfold mapperLadder
    simp only [hne, Bool.not_true, Bool.false_eq_true, if_false]
    by_cases hs : (sOp t).isEmpty
    · simp only [hs, Bool.not_true, Bool.false_eq_true, if_false]
      cases broaden <;> rfl
    · simp only [hs, Bool.not_false, if_true]
      rfl
  · intro hdist i hi
    unfold mapperLadder at hi
    simp only [hne, Bool.not_true, Bool.false_eq_true, if_false] at hi
    by_cases hs : (sOp t).isEmpty
    · simp only [hs, Bool.not_true, Bool.false_eq_true, if_false] at hi
      cases broaden with
      | true =>
        simp only [if_true] at hi
        match i, hi with
        | 0, hi =>
          exfalso
          apply hdist
          have := (Option.some.injEq _ _).mp hi
          injection this with h1
          exact h1.symm
        | 1, hi => simp [List.get?] at hi
        | (n + 2), hi =>
          match n, hi with
          | 0, _ => omega
          | (m + 1), hi => simp [List.get?] at hi
      | false =>
        simp only [Bool.false_eq_true, if_false] at hi
        match i, hi with
        | 0, hi =>
          exfalso
          apply hdist
          have := (Option.some.injEq _ _).mp hi
          injection this with h1
          exact h1.symm
        | 1, hi => simp [List.get?] at hi
        | (n + 2), hi => simp [List.get?] at hi
    · simp only [hs, Bool.not_false, if_true] at hi
      match i, hi with
      | 0, hi =>
        exfalso
        apply hdist
        have := (Option.some.injEq _ _).mp hi
        injection this with h1
        exact h1.symm
      | 1, hi => simp [List.get?] at hi
      | (n + 2), hi => simp [List.get?] at hi
  · intro hb
    subst hb
    unfold mapperLadder
    simp [hne]
  · intro hb
    subst hb
    unfold mapperLadder
    simp [hne]

/-- C7 witness: with an empty primary result, a present title and a
filter whose broadened form differs, the trace places the title
search at position 1 before the broadened discovery call; without a
title the ladder goes straight to broadening (enabled) or stops with
the empty result (disabled). -/
theorem C7_fallback_ladder_order_witness :
    ((mapperLadder (fun _ => ([] : List Nat)) (fun _ => [])
        ⟨"movie", "IN", [8], [28], some 100, none⟩ (some "x") true).2.get? 1
      = some (.titleSearch "x"))
    ∧ (mapperLadder (fun _ => ([] : List Nat)) (fun _ => [])
        ⟨"movie", "IN", [8], [28], some 100, none⟩ none true
        = ([], [.discover ⟨"movie", "IN", [8], [28], some 100, none⟩,
            .discover ⟨"movie", "IN", [], [28], none, none⟩]))
    ∧ (mapperLadder (fun _ => ([] : List Nat)) (fun _ => [])
        ⟨"movie", "IN", [8], [28], some 100, none⟩ none false
        = ([], [.discover ⟨"movie", "IN", [8], [28], some 100, none⟩])) := by
  have h := C7_fallback_ladder_order (fun _ => ([] : List Nat)) (fun _ => [])
    ⟨"movie", "IN", [8], [28], some 100, none⟩ true "x" rfl
  have h2 := C7_fallback_ladder_order (fun _ => ([] : List Nat)) (fun _ => [])
    ⟨"movie", "IN", [8], [28], some 100, none⟩ false "x" rfl
  refine ⟨h.1.1, ?_, h2.2.2 rfl⟩
  have hb := h.2.1 rfl
  rw [hb]
  rfl

end ClaimsH
